import Mathlib

/-!
Verification of the collapse-archetypes scoring engine (src/scoring-engine.js)
against its natural-language specification.

The JavaScript source is shallowly embedded: JS numbers are modelled as exact
rationals (ℚ) wherever the code performs only field arithmetic and comparisons,
and as real numbers (ℝ) where square roots and trigonometry appear
(vector norms, cosine similarity, radar-chart geometry). JS objects used as
string-keyed score maps are modelled as association lists `List (String × ℚ)`
with unique-key update semantics. Functions that `throw` are modelled in
`Except JsError`.
-/

/-- Errors thrown by the engine: `thrown` models `throw new Error(msg)`;
`typeError` models a JavaScript runtime TypeError (e.g. reading a property of
`undefined`). -/
inductive JsError where
  | thrown (msg : String)
  | typeError (msg : String)
  deriving DecidableEq, Repr

/-- Tie tolerance factor (epsilon), source constant `TIE_TOLERANCE = 0.05`. -/
def TIE_TOLERANCE : ℚ := 5 / 100

/-- Minimum variance threshold, source constant `MINIMUM_VARIANCE = 0.1`. -/
def MINIMUM_VARIANCE : ℚ := 1 / 10

/-- Source constant `CONFIDENCE_THRESHOLDS.STRONG = 0.5`. -/
def CONFIDENCE_THRESHOLDS_STRONG : ℚ := 1 / 2

/-- Source constant `CONFIDENCE_THRESHOLDS.MODERATE = 0.2`. -/
def CONFIDENCE_THRESHOLDS_MODERATE : ℚ := 1 / 5

/-- Six-dimensional trait profile, mirroring the objects stored in
`ARCHETYPE_TRAIT_PROFILES`. -/
structure TraitProfile where
  awareness : ℚ
  affect : ℚ
  agency : ℚ
  time : ℚ
  relationality : ℚ
  posture : ℚ
  deriving DecidableEq, Repr

/-- The 19 archetype trait profiles, transcribed from the source constant
`ARCHETYPE_TRAIT_PROFILES` (fields in source order: awareness, affect, agency,
time, relationality, posture). -/
def ARCHETYPE_TRAIT_PROFILES : List (String × TraitProfile) :=
  [ ("ostrich", ⟨0.2, 0.0, 0.2, 0.0, 0.0, 0.0⟩),
    ("blissed-out-yogi", ⟨0.9, 0.8, 0.5, 0.0, 0.0, 0.0⟩),
    ("illusionist", ⟨0.5, 0.0, 0.9, 0.0, 1.0, 1.0⟩),
    ("normalizer", ⟨0.2, 0.0, 0.5, 0.0, 1.0, 0.0⟩),
    ("prepper", ⟨0.9, 0.0, 0.9, 1.0, 0.0, 1.0⟩),
    ("prophet-of-doom", ⟨0.9, -0.7, 0.5, 1.0, 0.0, 1.0⟩),
    ("alt-right-collapse-bro", ⟨0.5, -0.7, 0.9, 1.0, 1.0, 1.0⟩),
    ("evangelical-nationalist", ⟨0.9, 0.8, 0.5, 1.0, 1.0, 1.0⟩),
    ("apocaloptimist", ⟨0.9, 0.8, 0.9, 1.0, 0.0, 1.0⟩),
    ("trickster", ⟨0.5, 0.0, 0.9, 0.0, 0.0, 1.0⟩),
    ("woke-lefty-socialist", ⟨0.9, -0.7, 0.9, 1.0, 1.0, 1.0⟩),
    ("salvager", ⟨0.5, 0.0, 0.9, 0.0, 0.0, 1.0⟩),
    ("sacred-keeper", ⟨0.9, 0.8, 0.5, -1.0, 1.0, 0.0⟩),
    ("everyday-hustler", ⟨0.5, 0.0, 0.9, 0.0, 0.0, 1.0⟩),
    ("already-collapsed", ⟨0.9, -0.7, 0.2, 0.0, 0.0, 0.0⟩),
    ("extracted", ⟨0.2, 0.0, 0.2, 0.0, 0.0, 0.0⟩),
    ("child-witness", ⟨0.2, 0.0, 0.2, 0.0, 0.0, 0.0⟩),
    ("opportunist-elite", ⟨0.9, 0.0, 0.9, 1.0, 0.0, 1.0⟩),
    ("conspiracy-theorist", ⟨0.5, -0.7, 0.5, 0.0, 0.0, 0.0⟩) ]

/-- Lookup `ARCHETYPE_TRAIT_PROFILES[archetypeId]` (JS object key access;
keys are unique, so first match suffices). -/
def profileLookup (archetypeId : String) : Option TraitProfile :=
  (ARCHETYPE_TRAIT_PROFILES.find? (fun p => p.1 == archetypeId)).map (·.2)

/-- An answer: `{id, archetypeScores: {archetypeId: points}}`. An absent or
empty `archetypeScores` object is modelled as the empty list (both contribute
nothing in the aggregation loop). -/
structure Answer where
  id : String
  archetypeScores : List (String × ℚ)
  deriving DecidableEq, Repr

/-- A question: `{id, text, weight?, answers}`. -/
structure Question where
  id : String
  text : String
  weight : Option ℚ
  answers : List Answer
  deriving DecidableEq, Repr

/-- A user response: `{questionId, answerId}`. -/
structure Response where
  questionId : String
  answerId : String
  deriving DecidableEq, Repr

/-- Sum of the values of an association-list map (`Σ` of a JS object's
values). -/
def sumValues (l : List (String × ℚ)) : ℚ :=
  (l.map (·.2)).sum

/-- The JS statement pair `scores[k] += v` / `scores[k] = v` (when absent):
update the first entry with key `k` by adding `v`, or append a new entry.
On maps with unique keys this is exactly JS object assignment. -/
def addScore : List (String × ℚ) → String → ℚ → List (String × ℚ)
  | [], k, v => [(k, v)]
  | p :: rest, k, v =>
      if p.1 = k then (p.1, p.2 + v) :: rest else p :: addScore rest k v

/-- Initial score map: every catalogued archetype at 0 (source lines 255-258). -/
def initialScores : List (String × ℚ) :=
  ARCHETYPE_TRAIT_PROFILES.map (fun p => (p.1, (0 : ℚ)))

/-- The `questionMap` lookup of the source: the map is built by
`questions.forEach(q => questionMap[q.id] = q)`, so a later question with a
duplicate id overwrites an earlier one; lookup therefore returns the LAST
matching question. -/
def questionLookup (questions : List Question) (qid : String) : Option Question :=
  questions.foldl (fun acc q => if q.id = qid then some q else acc) none

/-- Inner loop of the aggregator: add `weight × points` for every
`(archetypeId, points)` pair of the selected answer. -/
def applyAnswerPoints (scores : List (String × ℚ)) (weight : ℚ)
    (points : List (String × ℚ)) : List (String × ℚ) :=
  points.foldl (fun s p => addScore s p.1 (weight * p.2)) scores

/-- One iteration of the `userResponses.forEach` loop in
`calculateArchetypeScores`: resolve the question (warn and skip when absent),
resolve the answer by `find` (warn and skip when absent), then add weighted
points using the question's weight (default 1.0). -/
def processResponse (questions : List Question) (scores : List (String × ℚ))
    (response : Response) : List (String × ℚ) :=
  match questionLookup questions response.questionId with
  | none => scores
  | some question =>
      match question.answers.find? (fun a => a.id == response.answerId) with
      | none => scores
      | some selectedAnswer =>
          applyAnswerPoints scores (question.weight.getD 1)
            selectedAnswer.archetypeScores

/-- Embedding of `calculateArchetypeScores(questions, userResponses)`
(source lines 253-300). -/
def calculateArchetypeScores (questions : List Question)
    (userResponses : List Response) : List (String × ℚ) :=
  userResponses.foldl (processResponse questions) initialScores

/-- The weighted contribution of one response, as the specification words it:
`weight × (sum of the selected answer's archetype point values)` when both ids
resolve, `0` otherwise. -/
def responseValue (questions : List Question) (response : Response) : ℚ :=
  match questionLookup questions response.questionId with
  | none => 0
  | some question =>
      match question.answers.find? (fun a => a.id == response.answerId) with
      | none => 0
      | some selectedAnswer =>
          (question.weight.getD 1) * sumValues selectedAnswer.archetypeScores

theorem sumValues_addScore (scores : List (String × ℚ)) (k : String) (v : ℚ) :
    sumValues (addScore scores k v) = sumValues scores + v := by
  induction scores with
  | nil => simp [addScore, sumValues]
  | cons p rest ih =>
      by_cases h : p.1 = k
      · simp [addScore, h, sumValues]; ring
      · simp [addScore, h, sumValues] at ih ⊢
        rw [ih]; ring

theorem sumValues_applyAnswerPoints (weight : ℚ)
    (points scores : List (String × ℚ)) :
    sumValues (applyAnswerPoints scores weight points) =
      sumValues scores + weight * sumValues points := by
  induction points generalizing scores with
  | nil => simp [applyAnswerPoints, sumValues]
  | cons p rest ih =>
      simp only [applyAnswerPoints, List.foldl_cons] at ih ⊢
      rw [ih, sumValues_addScore]
      simp [sumValues]; ring

theorem sumValues_processResponse (questions : List Question)
    (scores : List (String × ℚ)) (response : Response) :
    sumValues (processResponse questions scores response) =
      sumValues scores + responseValue questions response := by
  unfold processResponse responseValue
  rcases hq : questionLookup questions response.questionId with _ | question
  · simp
  · rcases hfind : List.find? (fun a => a.id == response.answerId) question.answers with
      _ | selectedAnswer
    · simp [hfind]
    · simp [hfind, sumValues_applyAnswerPoints]

theorem sumValues_foldl_processResponse (questions : List Question)
    (userResponses : List Response) (scores : List (String × ℚ)) :
    sumValues (userResponses.foldl (processResponse questions) scores) =
      sumValues scores + (userResponses.map (responseValue questions)).sum := by
  induction userResponses generalizing scores with
  | nil => simp
  | cons r rest ih =>
      simp only [List.foldl_cons, List.map_cons, List.sum_cons]
      rw [ih, sumValues_processResponse]; ring

theorem sumValues_initialScores : sumValues initialScores = 0 := by
  norm_num [initialScores, ARCHETYPE_TRAIT_PROFILES, sumValues]

/-- C3. Conservation: for every quiz definition and response list, the sum
over all archetypes of the score map returned by `calculateArchetypeScores`
equals the sum, over the processed responses (those whose questionId resolves
to a question and whose answerId resolves to an answer of that question), of
the question's weight (default 1.0) times the sum of that answer's archetype
point values. -/
theorem scoreConservation (questions : List Question)
    (userResponses : List Response) :
    sumValues (calculateArchetypeScores questions userResponses) =
      (userResponses.map (responseValue questions)).sum := by
  unfold calculateArchetypeScores
  rw [sumValues_foldl_processResponse, sumValues_initialScores, zero_add]

/-- Embedding of `String.localeCompare` as used for deterministic alphabetical
tie-breaks: negative when `a` sorts before `b`, zero when equal, positive
otherwise (ASCII identifiers, so lexicographic order). -/
def localeCompare (a b : String) : ℚ :=
  match compare a b with
  | .lt => -1
  | .eq => 0
  | .gt => 1

/-- The sort comparator of `determineDominantArchetypes` (source lines
355-361): score difference descending, falling back to id order when the
difference is within the fixed floating-point epsilon 0.0001. -/
def dominantCmp (a b : String × ℚ) : ℚ :=
  let scoreDiff := b.2 - a.2
  if |scoreDiff| < 1 / 10000 then localeCompare a.1 b.1 else scoreDiff

/-- In a JS comparator sort, `a` is placed no later than `b` exactly when the
comparator is ≤ 0; the stable `List.insertionSort` over this relation models
`Array.prototype.sort`. -/
def domRel (a b : String × ℚ) : Prop := dominantCmp a b ≤ 0

instance : DecidableRel domRel :=
  fun a b => inferInstanceAs (Decidable (dominantCmp a b ≤ 0))

/-- Result object of `determineDominantArchetypes` (source lines 369-376). -/
structure DominantResult where
  dominant : List String
  scores : List (String × ℚ)
  maxScore : ℚ
  threshold : ℚ
  hasTie : Bool
  variance : ℚ
  deriving DecidableEq, Repr

/-- The source's `Math.max(...scoreEntries.map(([_, score]) => score))` over a
non-empty entry list `s0 :: rest`. -/
def scoresMax (s0 : String × ℚ) (rest : List (String × ℚ)) : ℚ :=
  (rest.map Prod.snd).foldl max s0.2

/-- The matching `Math.min` over a non-empty entry list. -/
def scoresMin (s0 : String × ℚ) (rest : List (String × ℚ)) : ℚ :=
  (rest.map Prod.snd).foldl min s0.2

/-- Embedding of `determineDominantArchetypes(scores, tieTolerance)` (source
lines 330-377). Empty input throws; the all-zero check throws the
NoValidScores error; otherwise entries with score ≥ `maxScore × (1 - ε)` are
collected and sorted by the comparator. -/
def determineDominantArchetypes (scores : List (String × ℚ))
    (tieTolerance : ℚ) : Except JsError DominantResult :=
  match scores with
  | [] => .error (.thrown "No archetype scores provided")
  | s0 :: rest =>
      let maxScore := scoresMax s0 rest
      let minScore := scoresMin s0 rest
      let variance := maxScore - minScore
      if variance < MINIMUM_VARIANCE ∧ maxScore = 0 then
        .error (.thrown "No valid scores recorded - all archetypes have zero points")
      else
        let threshold := maxScore * (1 - tieTolerance)
        let dominantEntries := (s0 :: rest).filter (fun p => threshold ≤ p.2)
        let sorted := List.insertionSort domRel dominantEntries
        .ok ⟨sorted.map Prod.fst, sorted, maxScore, threshold,
          decide (1 < sorted.length), variance⟩

theorem le_foldl_max (l : List ℚ) (a : ℚ) : a ≤ l.foldl max a := by
  induction l generalizing a with
  | nil => exact le_refl a
  | cons x xs ih => exact le_trans (le_max_left a x) (ih (max a x))

theorem mem_le_foldl_max (l : List ℚ) (a x : ℚ) (hx : x ∈ l) :
    x ≤ l.foldl max a := by
  induction l generalizing a with
  | nil => cases hx
  | cons y ys ih =>
      rcases List.mem_cons.1 hx with rfl | hmem
      · exact le_trans (le_max_right a x) (le_foldl_max ys (max a x))
      · exact ih (max a y) hmem

theorem foldl_max_attained (l : List ℚ) (a : ℚ) :
    l.foldl max a = a ∨ l.foldl max a ∈ l := by
  induction l generalizing a with
  | nil => exact Or.inl rfl
  | cons x xs ih =>
      rcases ih (max a x) with h | h
      · rcases max_choice a x with hm | hm
        · exact Or.inl (by rw [List.foldl_cons, h, hm])
        · refine Or.inr ?_
          rw [List.foldl_cons, h, hm]
          exact List.mem_cons_self x xs
      · exact Or.inr (List.mem_cons_of_mem x h)

theorem foldl_min_attained (l : List ℚ) (a : ℚ) :
    l.foldl min a = a ∨ l.foldl min a ∈ l := by
  induction l generalizing a with
  | nil => exact Or.inl rfl
  | cons x xs ih =>
      rcases ih (min a x) with h | h
      · rcases min_choice a x with hm | hm
        · exact Or.inl (by rw [List.foldl_cons, h, hm])
        · refine Or.inr ?_
          rw [List.foldl_cons, h, hm]
          exact List.mem_cons_self x xs
      · exact Or.inr (List.mem_cons_of_mem x h)

theorem scoresMax_attained (s0 : String × ℚ) (rest : List (String × ℚ)) :
    ∃ p ∈ s0 :: rest, p.2 = scoresMax s0 rest := by
  rcases foldl_max_attained (rest.map Prod.snd) s0.2 with h | h
  · exact ⟨s0, List.mem_cons_self s0 rest, h.symm⟩
  · rcases List.mem_map.1 h with ⟨p, hp, hval⟩
    exact ⟨p, List.mem_cons_of_mem s0 hp, hval⟩

theorem scoresMin_attained (s0 : String × ℚ) (rest : List (String × ℚ)) :
    ∃ p ∈ s0 :: rest, p.2 = scoresMin s0 rest := by
  rcases foldl_min_attained (rest.map Prod.snd) s0.2 with h | h
  · exact ⟨s0, List.mem_cons_self s0 rest, h.symm⟩
  · rcases List.mem_map.1 h with ⟨p, hp, hval⟩
    exact ⟨p, List.mem_cons_of_mem s0 hp, hval⟩

theorem determineDominant_cons_eq (s0 : String × ℚ) (rest : List (String × ℚ))
    (ε : ℚ) :
    determineDominantArchetypes (s0 :: rest) ε =
      if scoresMax s0 rest - scoresMin s0 rest < MINIMUM_VARIANCE ∧
          scoresMax s0 rest = 0 then
        .error (.thrown "No valid scores recorded - all archetypes have zero points")
      else
        .ok ⟨(List.insertionSort domRel
            ((s0 :: rest).filter
              (fun p => scoresMax s0 rest * (1 - ε) ≤ p.2))).map Prod.fst,
          List.insertionSort domRel
            ((s0 :: rest).filter (fun p => scoresMax s0 rest * (1 - ε) ≤ p.2)),
          scoresMax s0 rest, scoresMax s0 rest * (1 - ε),
          decide (1 < (List.insertionSort domRel
            ((s0 :: rest).filter
              (fun p => scoresMax s0 rest * (1 - ε) ≤ p.2))).length),
          scoresMax s0 rest - scoresMin s0 rest⟩ := rfl

/-- C2 counterexample: on the map `{a: 0, b: -0.05}` the Dominance Resolver
raises the NoValidScores error with the default tolerance even though not
every score is zero, refuting "and only in that case". -/
theorem noValidScores_cex :
    determineDominantArchetypes [("a", 0), ("b", -1/20)] TIE_TOLERANCE =
      .error (.thrown "No valid scores recorded - all archetypes have zero points") ∧
    ¬ (∀ p ∈ [(("a" : String), (0 : ℚ)), ("b", -1/20)], p.2 = 0) := by
  constructor
  · rw [determineDominant_cons_eq]
    norm_num [scoresMax, scoresMin, MINIMUM_VARIANCE]
  · intro h
    have hb := h ("b", -1/20) (by simp)
    norm_num at hb

/-- C2 amended: for every non-empty score map, the Dominance Resolver raises
the NoValidScores error exactly when the maximum score is zero and the
score range (max − min) is below the minimum-variance constant 0.1. In
particular an all-zero map always raises, and a map whose scores are all equal
and strictly positive never raises (a legitimate uniform tie); but a map whose
maximum is zero with slightly negative entries also raises, so all-zero is
sufficient, not necessary. -/
theorem noValidScores_characterization (s0 : String × ℚ)
    (rest : List (String × ℚ)) (ε : ℚ) :
    (determineDominantArchetypes (s0 :: rest) ε =
        .error (.thrown "No valid scores recorded - all archetypes have zero points")
      ↔ scoresMax s0 rest - scoresMin s0 rest < MINIMUM_VARIANCE ∧
          scoresMax s0 rest = 0) ∧
    ((∀ p ∈ s0 :: rest, p.2 = 0) →
      determineDominantArchetypes (s0 :: rest) ε =
        .error (.thrown "No valid scores recorded - all archetypes have zero points")) ∧
    (∀ c : ℚ, 0 < c → (∀ p ∈ s0 :: rest, p.2 = c) →
      determineDominantArchetypes (s0 :: rest) ε ≠
        .error (.thrown "No valid scores recorded - all archetypes have zero points")) := by
  have hiff : determineDominantArchetypes (s0 :: rest) ε =
      .error (.thrown "No valid scores recorded - all archetypes have zero points")
      ↔ scoresMax s0 rest - scoresMin s0 rest < MINIMUM_VARIANCE ∧
          scoresMax s0 rest = 0 := by
    rw [determineDominant_cons_eq]
    by_cases h : scoresMax s0 rest - scoresMin s0 rest < MINIMUM_VARIANCE ∧
        scoresMax s0 rest = 0
    · simp [h]
    · simp [h]
  refine ⟨hiff, ?_, ?_⟩
  · intro hall
    have hmax : scoresMax s0 rest = 0 := by
      rcases scoresMax_attained s0 rest with ⟨p, hp, hval⟩
      rw [← hval]; exact hall p hp
    have hmin : scoresMin s0 rest = 0 := by
      rcases scoresMin_attained s0 rest with ⟨p, hp, hval⟩
      rw [← hval]; exact hall p hp
    rw [hiff, hmax, hmin]
    norm_num [MINIMUM_VARIANCE]
  · intro c hc hall heq
    rw [hiff] at heq
    obtain ⟨-, hmax0⟩ := heq
    rcases scoresMax_attained s0 rest with ⟨p, hp, hval⟩
    have : p.2 = c := hall p hp
    rw [this] at hval
    rw [← hval] at hmax0
    exact absurd hmax0 (ne_of_gt hc)

/-- C2 witness: the characterization applied to the concrete uniform positive
map `{a: 2, b: 2}`, whose scores are all equal and strictly positive, showing
it does not raise. -/
theorem noValidScores_characterization_witness :
    determineDominantArchetypes [("a", 2), ("b", 2)] TIE_TOLERANCE ≠
      .error (.thrown "No valid scores recorded - all archetypes have zero points") :=
  (noValidScores_characterization ("a", 2) [("b", 2)] TIE_TOLERANCE).2.2 2
    (by norm_num) (by intro p hp; rcases List.mem_cons.1 hp with rfl | hp' <;> simp_all)

/-- C1 counterexample: on the single-entry map `{a: -1}` with the default
tolerance the Dominance Resolver does not raise (the NoValidScores check
requires a zero maximum), yet the returned dominant set is empty: the
threshold `-1 × 0.95 = -0.95` lies strictly above the maximum score, so the
maximum-achieving archetype `a` is not a member. -/
theorem dominantSet_max_membership_cex :
    determineDominantArchetypes [("a", -1)] TIE_TOLERANCE =
      .ok ⟨[], [], -1, -19/20, false, 0⟩ ∧
    "a" ∉ ([] : List String) := by
  constructor
  · rw [determineDominant_cons_eq]
    norm_num [scoresMax, scoresMin, MINIMUM_VARIANCE, TIE_TOLERANCE]
  · simp

/-- C1 amended: for every score map and tolerance ε ≥ 0 on which
`determineDominantArchetypes` returns successfully, PROVIDED the maximum score
is non-negative, every archetype achieving the maximum score is a member of
the returned dominant set, which is therefore non-empty. (The restriction to
a non-negative maximum is forced: with an all-negative map the threshold
`S_max × (1 - ε)` exceeds `S_max` and the dominant set comes back empty.) -/
theorem dominantSet_max_membership (scores : List (String × ℚ)) (ε : ℚ)
    (r : DominantResult) (hε : 0 ≤ ε)
    (hok : determineDominantArchetypes scores ε = .ok r)
    (hmax : 0 ≤ r.maxScore) :
    (∀ p ∈ scores, p.2 = r.maxScore → p.1 ∈ r.dominant) ∧
    (∃ p ∈ scores, p.2 = r.maxScore) ∧ r.dominant ≠ [] := by
  match scores with
  | [] => simp [determineDominantArchetypes] at hok
  | s0 :: rest =>
      rw [determineDominant_cons_eq] at hok
      by_cases hcond : scoresMax s0 rest - scoresMin s0 rest < MINIMUM_VARIANCE ∧
          scoresMax s0 rest = 0
      · rw [if_pos hcond] at hok
        exact absurd hok (by simp)
      · rw [if_neg hcond] at hok
        injection hok with hr
        subst hr
        simp only at hmax ⊢
        have hthr : ∀ p ∈ s0 :: rest, p.2 = scoresMax s0 rest →
            p ∈ (s0 :: rest).filter
              (fun p => scoresMax s0 rest * (1 - ε) ≤ p.2) := by
          intro p hp hval
          refine List.mem_filter.2 ⟨hp, ?_⟩
          rw [hval]
          have h1 : scoresMax s0 rest * (1 - ε) ≤ scoresMax s0 rest := by
            have : 0 ≤ scoresMax s0 rest * ε := mul_nonneg hmax hε
            nlinarith
          exact decide_eq_true h1
        refine ⟨?_, ?_, ?_⟩
        · intro p hp hval
          have hmemf := hthr p hp hval
          have hmems : p ∈ List.insertionSort domRel
              ((s0 :: rest).filter
                (fun p => scoresMax s0 rest * (1 - ε) ≤ p.2)) :=
            (List.perm_insertionSort domRel _).mem_iff.2 hmemf
          exact List.mem_map.2 ⟨p, hmems, rfl⟩
        · exact scoresMax_attained s0 rest
        · rcases scoresMax_attained s0 rest with ⟨p, hp, hval⟩
          have hmems : p ∈ List.insertionSort domRel
              ((s0 :: rest).filter
                (fun p => scoresMax s0 rest * (1 - ε) ≤ p.2)) :=
            (List.perm_insertionSort domRel _).mem_iff.2 (hthr p hp hval)
          exact List.ne_nil_of_mem (List.mem_map.2 ⟨p, hmems, rfl⟩)

/-- Concrete result record used by the C1 witness: scoring `{a: 3, b: 1}` at
the default tolerance. -/
def c1WitnessResult : DominantResult :=
  ⟨["a"], [("a", 3)], 3, 57/20, false, 2⟩

/-- C1 witness: the amended membership theorem applied to the concrete map
`{a: 3, b: 1}` with the default tolerance 0.05. -/
theorem dominantSet_max_membership_witness :
    (∀ p ∈ [(("a" : String), (3 : ℚ)), ("b", 1)],
        p.2 = c1WitnessResult.maxScore → p.1 ∈ c1WitnessResult.dominant) ∧
    (∃ p ∈ [(("a" : String), (3 : ℚ)), ("b", 1)],
        p.2 = c1WitnessResult.maxScore) ∧
    c1WitnessResult.dominant ≠ [] :=
  dominantSet_max_membership [("a", 3), ("b", 1)] TIE_TOLERANCE c1WitnessResult
    (by norm_num [TIE_TOLERANCE])
    (by
      rw [determineDominant_cons_eq]
      norm_num +decide [scoresMax, scoresMin, MINIMUM_VARIANCE, TIE_TOLERANCE,
        c1WitnessResult, domRel, dominantCmp, localeCompare])
    (by norm_num [c1WitnessResult])

/-- The sort relation of `calculateConfidence` (comparator `b[1] - a[1]`,
i.e. score descending; `a` sorts no later than `b` when the comparator is
≤ 0). -/
def confRel (a b : String × ℚ) : Prop := b.2 ≤ a.2

instance : DecidableRel confRel :=
  fun a b => inferInstanceAs (Decidable (b.2 ≤ a.2))

instance : IsTotal (String × ℚ) confRel :=
  ⟨fun a b => le_total b.2 a.2⟩

instance : IsTrans (String × ℚ) confRel :=
  ⟨fun _ _ _ h1 h2 => le_trans h2 h1⟩

/-- Result object of `calculateConfidence` (source lines 402-445). -/
structure Confidence where
  score : ℚ
  level : String
  firstPlace : Option String
  secondPlace : Option String
  deriving DecidableEq, Repr

/-- The `.filter(([_, score]) => score > 0)` step of `calculateConfidence`. -/
def positiveEntries (scores : List (String × ℚ)) : List (String × ℚ) :=
  scores.filter (fun p => decide (0 < p.2))

/-- Embedding of `calculateConfidence(scores)` (source lines 402-445):
keep strictly positive entries, sort by score descending (stable), then case
on how many remain. -/
def calculateConfidence (scores : List (String × ℚ)) : Confidence :=
  match List.insertionSort confRel (positiveEntries scores) with
  | [] => ⟨0, "NONE", none, none⟩
  | [single] => ⟨1, "PERFECT", some single.1, none⟩
  | first :: second :: _ =>
      let confidenceScore := (first.2 - second.2) / first.2
      let level :=
        if CONFIDENCE_THRESHOLDS_STRONG ≤ confidenceScore then "STRONG"
        else if CONFIDENCE_THRESHOLDS_MODERATE ≤ confidenceScore then "MODERATE"
        else "WEAK"
      ⟨confidenceScore, level, some first.1, some second.1⟩

theorem mem_positiveEntries_pos (scores : List (String × ℚ))
    (p : String × ℚ) (hp : p ∈ positiveEntries scores) : 0 < p.2 := by
  have := (List.mem_filter.1 hp).2
  simpa using this

/-- C4. For every score map: with zero strictly positive entries,
`calculateConfidence` returns confidence 0, level NONE and no first or second
place; with exactly one, confidence 1.0, level PERFECT and no second place;
with two or more, confidence `(first − second) / first` over the two largest
positive scores (witnessed by a permutation of the positive scores whose
first two components dominate the rest), a value in [0, 1], with level STRONG
when ≥ 0.5, MODERATE when ≥ 0.2 and WEAK otherwise. -/
theorem confidence_spec (scores : List (String × ℚ)) :
    (positiveEntries scores = [] →
      calculateConfidence scores = ⟨0, "NONE", none, none⟩) ∧
    ((positiveEntries scores).length = 1 →
      (calculateConfidence scores).score = 1 ∧
      (calculateConfidence scores).level = "PERFECT" ∧
      (calculateConfidence scores).secondPlace = none) ∧
    (2 ≤ (positiveEntries scores).length →
      ∃ s₁ s₂ t, ((positiveEntries scores).map Prod.snd).Perm (s₁ :: s₂ :: t) ∧
        s₂ ≤ s₁ ∧ (∀ x ∈ t, x ≤ s₂) ∧
        (calculateConfidence scores).score = (s₁ - s₂) / s₁ ∧
        0 ≤ (calculateConfidence scores).score ∧
        (calculateConfidence scores).score ≤ 1 ∧
        (calculateConfidence scores).level =
          (if CONFIDENCE_THRESHOLDS_STRONG ≤ (calculateConfidence scores).score
            then "STRONG"
            else if CONFIDENCE_THRESHOLDS_MODERATE ≤
                (calculateConfidence scores).score
            then "MODERATE" else "WEAK")) := by
  have hperm := List.perm_insertionSort confRel (positiveEntries scores)
  have hsorted := List.sorted_insertionSort confRel (positiveEntries scores)
  refine ⟨?_, ?_, ?_⟩
  · intro hnil
    have hs : List.insertionSort confRel (positiveEntries scores) = [] := by
      have hlen : (List.insertionSort confRel (positiveEntries scores)).length = 0 := by
        rw [hperm.length_eq, hnil]
        rfl
      exact List.eq_nil_of_length_eq_zero hlen
    simp [calculateConfidence, hs]
  · intro hlen
    have hslen : (List.insertionSort confRel (positiveEntries scores)).length = 1 := by
      rw [hperm.length_eq, hlen]
    rcases hs : List.insertionSort confRel (positiveEntries scores) with
      _ | ⟨a, _ | ⟨b, t⟩⟩
    · rw [hs] at hslen; simp at hslen
    · simp [calculateConfidence, hs]
    · rw [hs] at hslen; simp at hslen
  · intro hlen
    have hslen : 2 ≤ (List.insertionSort confRel (positiveEntries scores)).length := by
      rw [hperm.length_eq]; exact hlen
    rcases hs : List.insertionSort confRel (positiveEntries scores) with
      _ | ⟨a, _ | ⟨b, t⟩⟩
    · rw [hs] at hslen; simp at hslen
    · rw [hs] at hslen; simp at hslen
    · rw [hs] at hperm hsorted
      have hmem_a : a ∈ positiveEntries scores :=
        hperm.mem_iff.1 (by simp)
      have hmem_b : b ∈ positiveEntries scores :=
        hperm.mem_iff.1 (by simp)
      have ha : 0 < a.2 := mem_positiveEntries_pos scores a hmem_a
      have hb : 0 < b.2 := mem_positiveEntries_pos scores b hmem_b
      have hba : b.2 ≤ a.2 := by
        have := (List.sorted_cons.1 hsorted).1 b (by simp)
        exact this
      have hrest : ∀ x ∈ t, x.2 ≤ b.2 := by
        intro x hx
        have := (List.sorted_cons.1 (List.sorted_cons.1 hsorted).2).1 x hx
        exact this
      have hconf : calculateConfidence scores =
          ⟨(a.2 - b.2) / a.2,
            if CONFIDENCE_THRESHOLDS_STRONG ≤ (a.2 - b.2) / a.2 then "STRONG"
            else if CONFIDENCE_THRESHOLDS_MODERATE ≤ (a.2 - b.2) / a.2
              then "MODERATE" else "WEAK",
            some a.1, some b.1⟩ := by
        simp [calculateConfidence, hs]
      have hscore_nonneg : 0 ≤ (a.2 - b.2) / a.2 :=
        div_nonneg (by linarith) (le_of_lt ha)
      have hscore_le_one : (a.2 - b.2) / a.2 ≤ 1 := by
        rw [div_le_one ha]; linarith
      refine ⟨a.2, b.2, t.map Prod.snd, ?_, hba, ?_, ?_, ?_, ?_, ?_⟩
      · have := hperm.map Prod.snd
        exact this.symm
      · intro x hx
        rcases List.mem_map.1 hx with ⟨p, hp, rfl⟩
        exact hrest p hp
      · rw [hconf]
      · rw [hconf]; exact hscore_nonneg
      · rw [hconf]; exact hscore_le_one
      · rw [hconf]

/-- C4 witness: the three cases of `confidence_spec` applied to the concrete
maps `{z: -1}` (no positive entries), `{a: 5}` (one), and `{a: 10, b: 4}`
(two, confidence 0.6 STRONG). -/
theorem confidence_spec_witness :
    calculateConfidence [("z", -1)] = ⟨0, "NONE", none, none⟩ ∧
    ((calculateConfidence [("a", 5)]).score = 1 ∧
      (calculateConfidence [("a", 5)]).level = "PERFECT" ∧
      (calculateConfidence [("a", 5)]).secondPlace = none) ∧
    (∃ s₁ s₂ t,
      ((positiveEntries [("a", 10), ("b", 4)]).map Prod.snd).Perm
        (s₁ :: s₂ :: t) ∧
      s₂ ≤ s₁ ∧ (∀ x ∈ t, x ≤ s₂) ∧
      (calculateConfidence [("a", 10), ("b", 4)]).score = (s₁ - s₂) / s₁ ∧
      0 ≤ (calculateConfidence [("a", 10), ("b", 4)]).score ∧
      (calculateConfidence [("a", 10), ("b", 4)]).score ≤ 1 ∧
      (calculateConfidence [("a", 10), ("b", 4)]).level =
        (if CONFIDENCE_THRESHOLDS_STRONG ≤
            (calculateConfidence [("a", 10), ("b", 4)]).score
          then "STRONG"
          else if CONFIDENCE_THRESHOLDS_MODERATE ≤
              (calculateConfidence [("a", 10), ("b", 4)]).score
          then "MODERATE" else "WEAK")) :=
  ⟨(confidence_spec [("z", -1)]).1 (by norm_num [positiveEntries]),
   (confidence_spec [("a", 5)]).2.1 (by norm_num [positiveEntries]),
   (confidence_spec [("a", 10), ("b", 4)]).2.2 (by norm_num [positiveEntries])⟩

/-- One iteration of the accumulation loop in `inferUserTraitVector` (source
lines 605-618): skip entries with non-positive score, skip archetypes without
a catalogued profile, otherwise add `score × traitValue` per dimension and
`score` to the running total. -/
def inferStep (acc : TraitProfile × ℚ) (p : String × ℚ) : TraitProfile × ℚ :=
  if p.2 ≤ 0 then acc
  else
    match profileLookup p.1 with
    | none => acc
    | some profile =>
        (⟨acc.1.awareness + p.2 * profile.awareness,
          acc.1.affect + p.2 * profile.affect,
          acc.1.agency + p.2 * profile.agency,
          acc.1.time + p.2 * profile.time,
          acc.1.relationality + p.2 * profile.relationality,
          acc.1.posture + p.2 * profile.posture⟩, acc.2 + p.2)

/-- Embedding of `inferUserTraitVector(scores)` (source lines 592-635):
accumulate, divide by the total when it is strictly positive, and return the
six components in source order. -/
def inferUserTraitVector (scores : List (String × ℚ)) : List ℚ :=
  let acc := scores.foldl inferStep (⟨0, 0, 0, 0, 0, 0⟩, 0)
  let traits :=
    if 0 < acc.2 then
      (⟨acc.1.awareness / acc.2, acc.1.affect / acc.2, acc.1.agency / acc.2,
        acc.1.time / acc.2, acc.1.relationality / acc.2,
        acc.1.posture / acc.2⟩ : TraitProfile)
    else acc.1
  [traits.awareness, traits.affect, traits.agency, traits.time,
    traits.relationality, traits.posture]

/-- The entries that contribute to the inferred trait vector: strictly
positive score and a catalogued trait profile. -/
def contributingEntries (scores : List (String × ℚ)) : List (String × ℚ) :=
  scores.filter (fun p => decide (0 < p.2) && (profileLookup p.1).isSome)

/-- Total weight `Σ score` over the contributing entries. -/
def contributionTotal (scores : List (String × ℚ)) : ℚ :=
  ((contributingEntries scores).map Prod.snd).sum

/-- Per-dimension weighted sum `Σ score × traitValue` over the contributing
entries. -/
def contributionSum (scores : List (String × ℚ)) (f : TraitProfile → ℚ) : ℚ :=
  ((contributingEntries scores).map
    (fun p => p.2 * (profileLookup p.1).elim 0 f)).sum

theorem infer_foldl (scores : List (String × ℚ)) (t : TraitProfile) (s : ℚ) :
    scores.foldl inferStep (t, s) =
      (⟨t.awareness + contributionSum scores (·.awareness),
        t.affect + contributionSum scores (·.affect),
        t.agency + contributionSum scores (·.agency),
        t.time + contributionSum scores (·.time),
        t.relationality + contributionSum scores (·.relationality),
        t.posture + contributionSum scores (·.posture)⟩,
        s + contributionTotal scores) := by
  induction scores generalizing t s with
  | nil => simp [contributionSum, contributionTotal, contributingEntries]
  | cons p rest ih =>
      by_cases h1 : p.2 ≤ 0
      · have hfilter : contributingEntries (p :: rest) = contributingEntries rest := by
          simp [contributingEntries, List.filter_cons, not_lt.2 h1]
        simp only [List.foldl_cons, inferStep, if_pos h1]
        rw [ih]
        simp [contributionSum, contributionTotal, hfilter]
      · rcases hlook : profileLookup p.1 with _ | profile
        · have hfilter : contributingEntries (p :: rest) = contributingEntries rest := by
            simp [contributingEntries, List.filter_cons, hlook]
          simp only [List.foldl_cons, inferStep, if_neg h1, hlook]
          rw [ih]
          simp [contributionSum, contributionTotal, hfilter]
        · have hfilter : contributingEntries (p :: rest) =
              p :: contributingEntries rest := by
            simp [contributingEntries, List.filter_cons, hlook, lt_of_not_le h1]
          simp only [List.foldl_cons, inferStep, if_neg h1, hlook]
          rw [ih]
          simp only [contributionSum, contributionTotal, hfilter, List.map_cons,
            List.sum_cons, hlook, Option.elim]
          simp only [Prod.mk.injEq, TraitProfile.mk.injEq]
          refine ⟨⟨by ring, by ring, by ring, by ring, by ring, by ring⟩, by ring⟩

theorem contributionTotal_pos (scores : List (String × ℚ))
    (h : contributingEntries scores ≠ []) : 0 < contributionTotal scores := by
  unfold contributionTotal
  apply List.sum_pos
  · intro x hx
    rcases List.mem_map.1 hx with ⟨p, hp, rfl⟩
    have := (List.mem_filter.1 hp).2
    simp only [Bool.and_eq_true, decide_eq_true_eq] at this
    exact this.1
  · simp only [ne_eq, List.map_eq_nil_iff]
    exact h

/-- C6. For every score map, `inferUserTraitVector` returns the six-component
vector whose d-th component equals the sum, over archetypes having both a
strictly positive score and a catalogued trait profile, of
`score × profile[d]`, divided by the sum of those scores; archetypes with
non-positive score or no profile contribute nothing; and when no archetype
has both a strictly positive score and a known profile, it returns the zero
vector. -/
theorem inferUserTraitVector_spec (scores : List (String × ℚ)) :
    (contributingEntries scores ≠ [] →
      inferUserTraitVector scores =
        [contributionSum scores (·.awareness) / contributionTotal scores,
         contributionSum scores (·.affect) / contributionTotal scores,
         contributionSum scores (·.agency) / contributionTotal scores,
         contributionSum scores (·.time) / contributionTotal scores,
         contributionSum scores (·.relationality) / contributionTotal scores,
         contributionSum scores (·.posture) / contributionTotal scores]) ∧
    (contributingEntries scores = [] →
      inferUserTraitVector scores = [0, 0, 0, 0, 0, 0]) := by
  constructor
  · intro hne
    have htot := contributionTotal_pos scores hne
    simp only [inferUserTraitVector, infer_foldl, zero_add, if_pos htot]
  · intro hnil
    have htot : contributionTotal scores = 0 := by
      simp [contributionTotal, hnil]
    have hsum : ∀ f : TraitProfile → ℚ, contributionSum scores f = 0 := by
      intro f; simp [contributionSum, hnil]
    simp only [inferUserTraitVector, infer_foldl, zero_add, htot, hsum]
    norm_num

/-- C6 witness: the spec applied to the concrete map
`{prepper: 2, mystery: 3, ostrich: -1}`, where only `prepper` contributes
(positive score and catalogued profile); `mystery` has no profile and
`ostrich` has a negative score. -/
theorem inferUserTraitVector_spec_witness :
    inferUserTraitVector [("prepper", 2), ("mystery", 3), ("ostrich", -1)] =
      [contributionSum [("prepper", 2), ("mystery", 3), ("ostrich", -1)]
          (·.awareness) /
        contributionTotal [("prepper", 2), ("mystery", 3), ("ostrich", -1)],
       contributionSum [("prepper", 2), ("mystery", 3), ("ostrich", -1)]
          (·.affect) /
        contributionTotal [("prepper", 2), ("mystery", 3), ("ostrich", -1)],
       contributionSum [("prepper", 2), ("mystery", 3), ("ostrich", -1)]
          (·.agency) /
        contributionTotal [("prepper", 2), ("mystery", 3), ("ostrich", -1)],
       contributionSum [("prepper", 2), ("mystery", 3), ("ostrich", -1)]
          (·.time) /
        contributionTotal [("prepper", 2), ("mystery", 3), ("ostrich", -1)],
       contributionSum [("prepper", 2), ("mystery", 3), ("ostrich", -1)]
          (·.relationality) /
        contributionTotal [("prepper", 2), ("mystery", 3), ("ostrich", -1)],
       contributionSum [("prepper", 2), ("mystery", 3), ("ostrich", -1)]
          (·.posture) /
        contributionTotal [("prepper", 2), ("mystery", 3), ("ostrich", -1)]] :=
  (inferUserTraitVector_spec [("prepper", 2), ("mystery", 3), ("ostrich", -1)]).1
    (by norm_num +decide [contributingEntries, profileLookup,
      ARCHETYPE_TRAIT_PROFILES, List.find?])

/-- Embedding of `calculateVectorNorm(vector)` (source lines 490-493):
square root of the `reduce`-accumulated sum of squares. -/
noncomputable def calculateVectorNorm (vector : List ℝ) : ℝ :=
  Real.sqrt (vector.foldl (fun sum val => sum + val * val) 0)

/-- The dot product computed inside `calculateCosineSimilarity` (source line
517); the indexed `reduce` over `vector1` with `vector2[i]` coincides with the
zip product on the equal-length vectors that reach it past the guard. -/
def dotProduct (vector1 vector2 : List ℝ) : ℝ :=
  (List.zipWith (fun a b => a * b) vector1 vector2).sum

/-- Embedding of `calculateCosineSimilarity(vector1, vector2)` (source lines
511-529): throw on unequal lengths, return 0 when either norm is exactly
zero, else the normalized dot product. -/
noncomputable def calculateCosineSimilarity (vector1 vector2 : List ℝ) :
    Except JsError ℝ :=
  if vector1.length ≠ vector2.length then
    .error (.thrown "Vectors must have same dimensionality")
  else
    let norm1 := calculateVectorNorm vector1
    let norm2 := calculateVectorNorm vector2
    if norm1 = 0 ∨ norm2 = 0 then .ok 0
    else .ok (dotProduct vector1 vector2 / (norm1 * norm2))

theorem foldl_sq_eq (l : List ℝ) (a : ℝ) :
    l.foldl (fun sum val => sum + val * val) a =
      a + (l.map (fun v => v * v)).sum := by
  induction l generalizing a with
  | nil => simp
  | cons x xs ih =>
      rw [List.foldl_cons, ih, List.map_cons, List.sum_cons]
      ring

theorem calculateVectorNorm_eq (l : List ℝ) :
    calculateVectorNorm l = Real.sqrt ((l.map (fun v => v * v)).sum) := by
  rw [calculateVectorNorm, foldl_sq_eq, zero_add]

theorem list_sum_eq_sum_range (l : List ℝ) :
    l.sum = ∑ i in Finset.range l.length, l.getD i 0 := by
  induction l with
  | nil => simp
  | cons x xs ih =>
      rw [List.sum_cons, List.length_cons, Finset.sum_range_succ']
      simp only [List.getD_cons_succ, List.getD_cons_zero]
      rw [← ih, add_comm]

theorem getD_zipWith_mul :
    ∀ (u v : List ℝ) (i : ℕ), i < u.length → i < v.length →
      (List.zipWith (fun a b => a * b) u v).getD i 0 =
        u.getD i 0 * v.getD i 0
  | [], _, i, hu, _ => by simp at hu
  | _ :: _, [], i, _, hv => by simp at hv
  | x :: u, y :: v, 0, _, _ => by simp
  | x :: u, y :: v, i + 1, hu, hv => by
      simp only [List.zipWith_cons_cons, List.getD_cons_succ]
      exact getD_zipWith_mul u v i (Nat.lt_of_succ_lt_succ hu)
        (Nat.lt_of_succ_lt_succ hv)

theorem getD_map_sq (l : List ℝ) (i : ℕ) (hi : i < l.length) :
    (l.map (fun v => v * v)).getD i 0 = l.getD i 0 ^ 2 := by
  induction l generalizing i with
  | nil => simp at hi
  | cons x xs ih =>
      cases i with
      | zero => simp [pow_two]
      | succ j =>
          simp only [List.map_cons, List.getD_cons_succ]
          exact ih j (Nat.lt_of_succ_lt_succ hi)

theorem dotProduct_eq_sum_range (u v : List ℝ) (h : u.length = v.length) :
    dotProduct u v = ∑ i in Finset.range u.length, u.getD i 0 * v.getD i 0 := by
  unfold dotProduct
  rw [list_sum_eq_sum_range]
  have hlen : (List.zipWith (fun a b => a * b) u v).length = u.length := by
    rw [List.length_zipWith, h, min_self]
  rw [hlen]
  refine Finset.sum_congr rfl (fun i hi => ?_)
  have hiu : i < u.length := Finset.mem_range.1 hi
  exact getD_zipWith_mul u v i hiu (h ▸ hiu)

theorem sumSquares_eq_sum_range (u : List ℝ) :
    (u.map (fun v => v * v)).sum =
      ∑ i in Finset.range u.length, u.getD i 0 ^ 2 := by
  rw [list_sum_eq_sum_range, List.length_map]
  exact Finset.sum_congr rfl
    (fun i hi => getD_map_sq u i (Finset.mem_range.1 hi))

theorem abs_dotProduct_le (u v : List ℝ) (h : u.length = v.length) :
    |dotProduct u v| ≤ calculateVectorNorm u * calculateVectorNorm v := by
  rw [calculateVectorNorm_eq, calculateVectorNorm_eq,
    sumSquares_eq_sum_range, sumSquares_eq_sum_range, ← h]
  rw [abs_le]
  constructor
  · have hcs := Real.sum_mul_le_sqrt_mul_sqrt (Finset.range u.length)
      (fun i => -(u.getD i 0)) (fun i => v.getD i 0)
    simp only [neg_mul, Finset.sum_neg_distrib, neg_sq] at hcs
    rw [dotProduct_eq_sum_range u v h]
    linarith
  · have hcs := Real.sum_mul_le_sqrt_mul_sqrt (Finset.range u.length)
      (fun i => u.getD i 0) (fun i => v.getD i 0)
    rw [dotProduct_eq_sum_range u v h]
    exact hcs

/-- C5. `calculateCosineSimilarity` fails with the DimensionMismatch error if
and only if its two input vectors have unequal length; for equal-length
vectors it returns 0 when either vector's Euclidean norm is zero, and
otherwise returns `(u·v)/(‖u‖·‖v‖)`, a value lying in [-1, 1]. -/
theorem cosineSimilarity_spec (u v : List ℝ) :
    (calculateCosineSimilarity u v =
        .error (.thrown "Vectors must have same dimensionality")
      ↔ u.length ≠ v.length) ∧
    (u.length = v.length →
      ((calculateVectorNorm u = 0 ∨ calculateVectorNorm v = 0) →
        calculateCosineSimilarity u v = .ok 0) ∧
      (calculateVectorNorm u ≠ 0 → calculateVectorNorm v ≠ 0 →
        calculateCosineSimilarity u v =
          .ok (dotProduct u v /
            (calculateVectorNorm u * calculateVectorNorm v)) ∧
        -1 ≤ dotProduct u v /
            (calculateVectorNorm u * calculateVectorNorm v) ∧
        dotProduct u v /
            (calculateVectorNorm u * calculateVectorNorm v) ≤ 1)) := by
  constructor
  · by_cases hlen : u.length = v.length
    · simp only [calculateCosineSimilarity, hlen]
      constructor
      · intro hcontra
        by_cases hz : calculateVectorNorm u = 0 ∨ calculateVectorNorm v = 0 <;>
          simp [hz] at hcontra
      · intro hne
        exact absurd rfl hne
    · simp [calculateCosineSimilarity, hlen]
  · intro hlen
    constructor
    · intro hz
      simp [calculateCosineSimilarity, hlen, hz]
    · intro hu hv
      have hupos : 0 < calculateVectorNorm u :=
        lt_of_le_of_ne (Real.sqrt_nonneg _) (Ne.symm hu)
      have hvpos : 0 < calculateVectorNorm v :=
        lt_of_le_of_ne (Real.sqrt_nonneg _) (Ne.symm hv)
      have hprodpos : 0 < calculateVectorNorm u * calculateVectorNorm v :=
        mul_pos hupos hvpos
      have habs := abs_dotProduct_le u v hlen
      rw [abs_le] at habs
      refine ⟨?_, ?_, ?_⟩
      · simp [calculateCosineSimilarity, hlen, hu, hv]
      · rw [le_div_iff₀ hprodpos]
        linarith
      · rw [div_le_one hprodpos]
        exact habs.2

/-- C5 witness: the spec applied to the concrete orthogonal unit vectors
`[1, 0]` and `[0, 1]`, both of norm 1. -/
theorem cosineSimilarity_spec_witness :
    calculateVectorNorm [(1 : ℝ), 0] ≠ 0 ∧
    calculateVectorNorm [(0 : ℝ), 1] ≠ 0 ∧
    (calculateCosineSimilarity [(1 : ℝ), 0] [(0 : ℝ), 1] =
        .ok (dotProduct [(1 : ℝ), 0] [(0 : ℝ), 1] /
          (calculateVectorNorm [(1 : ℝ), 0] * calculateVectorNorm [(0 : ℝ), 1])) ∧
      -1 ≤ dotProduct [(1 : ℝ), 0] [(0 : ℝ), 1] /
          (calculateVectorNorm [(1 : ℝ), 0] * calculateVectorNorm [(0 : ℝ), 1]) ∧
      dotProduct [(1 : ℝ), 0] [(0 : ℝ), 1] /
          (calculateVectorNorm [(1 : ℝ), 0] * calculateVectorNorm [(0 : ℝ), 1]) ≤ 1) := by
  have h1 : calculateVectorNorm [(1 : ℝ), 0] = 1 := by
    rw [calculateVectorNorm]
    norm_num [Real.sqrt_one]
  have h2 : calculateVectorNorm [(0 : ℝ), 1] = 1 := by
    rw [calculateVectorNorm]
    norm_num [Real.sqrt_one]
  refine ⟨by rw [h1]; norm_num, by rw [h2]; norm_num, ?_⟩
  exact ((cosineSimilarity_spec [(1 : ℝ), 0] [(0 : ℝ), 1]).2 rfl).2
    (by rw [h1]; norm_num) (by rw [h2]; norm_num)

/-- One element of the `similarities` array built by `breakTieWithTraits`. -/
structure SimilarityEntry where
  archetypeId : String
  similarity : ℝ

/-- The six-component archetype vector assembled at source lines 556-563. -/
def profileVector (profile : TraitProfile) : List ℝ :=
  [(profile.awareness : ℝ), (profile.affect : ℝ), (profile.agency : ℝ),
    (profile.time : ℝ), (profile.relationality : ℝ), (profile.posture : ℝ)]

/-- The `tiedArchetypeIds.map(...)` loop of `breakTieWithTraits` (source lines
549-568): a candidate without a catalogued profile gets similarity 0 with a
warning; otherwise its cosine similarity with the user vector (a thrown
DimensionMismatch would propagate, hence `Except`). -/
noncomputable def computeSimilarities (userTraitVector : List ℝ) :
    List String → Except JsError (List SimilarityEntry)
  | [] => .ok []
  | archetypeId :: rest =>
      match profileLookup archetypeId with
      | none =>
          match computeSimilarities userTraitVector rest with
          | .error e => .error e
          | .ok sims => .ok (⟨archetypeId, 0⟩ :: sims)
      | some profile =>
          match calculateCosineSimilarity userTraitVector
              (profileVector profile) with
          | .error e => .error e
          | .ok sim =>
              match computeSimilarities userTraitVector rest with
              | .error e => .error e
              | .ok sims => .ok (⟨archetypeId, sim⟩ :: sims)

/-- The similarity sort comparator of `breakTieWithTraits` (source lines
571-577): similarity descending, alphabetical id tiebreak within the fixed
epsilon 0.0001. -/
noncomputable def simCmp (a b : SimilarityEntry) : ℝ :=
  let simDiff := b.similarity - a.similarity
  if |simDiff| < 1 / 10000 then
    ((localeCompare a.archetypeId b.archetypeId : ℚ) : ℝ)
  else simDiff

/-- JS sort order for the similarity comparator. -/
def simRel (a b : SimilarityEntry) : Prop := simCmp a b ≤ 0

noncomputable instance : DecidableRel simRel :=
  fun a b => inferInstanceAs (Decidable (simCmp a b ≤ 0))

/-- Embedding of `breakTieWithTraits(tiedArchetypeIds, allScores)` (source
lines 544-580), in state-passing style: the returned triple carries the final
values of both input objects alongside the winning id, so that the frame
property (the source never assigns through either reference) is observable.
An empty tied list would make `similarities[0].archetypeId` a TypeError. -/
noncomputable def breakTieWithTraits (tiedArchetypeIds : List String)
    (allScores : List (String × ℚ)) :
    Except JsError (String × List String × List (String × ℚ)) :=
  match computeSimilarities
      ((inferUserTraitVector allScores).map (fun q => (q : ℝ)))
      tiedArchetypeIds with
  | .error e => .error e
  | .ok similarities =>
      match List.insertionSort simRel similarities with
      | [] => .error (.typeError "Cannot read properties of undefined")
      | top :: _ => .ok (top.archetypeId, tiedArchetypeIds, allScores)

theorem inferUserTraitVector_length (scores : List (String × ℚ)) :
    (inferUserTraitVector scores).length = 6 := by
  simp [inferUserTraitVector]

theorem cosineSimilarity_ok_of_length_eq (u v : List ℝ)
    (h : u.length = v.length) :
    ∃ r, calculateCosineSimilarity u v = .ok r := by
  simp only [calculateCosineSimilarity]
  rw [if_neg (by simp [h])]
  by_cases hz : calculateVectorNorm u = 0 ∨ calculateVectorNorm v = 0
  · rw [if_pos hz]
    exact ⟨0, rfl⟩
  · rw [if_neg hz]
    exact ⟨dotProduct u v / (calculateVectorNorm u * calculateVectorNorm v), rfl⟩

theorem computeSimilarities_ok (userTraitVector : List ℝ)
    (h6 : userTraitVector.length = 6) (ids : List String) :
    ∃ sims, computeSimilarities userTraitVector ids = .ok sims ∧
      sims.length = ids.length := by
  induction ids with
  | nil => exact ⟨[], rfl, rfl⟩
  | cons archetypeId rest ih =>
      rcases ih with ⟨sims, hok, hlen⟩
      rcases hlook : profileLookup archetypeId with _ | profile
      · refine ⟨⟨archetypeId, 0⟩ :: sims, ?_, by simp [hlen]⟩
        simp [computeSimilarities, hlook, hok]
      · rcases cosineSimilarity_ok_of_length_eq userTraitVector
            (profileVector profile) (by rw [h6]; rfl) with ⟨r, hr⟩
        refine ⟨⟨archetypeId, r⟩ :: sims, ?_, by simp [hlen]⟩
        simp [computeSimilarities, hlook, hr, hok]

/-- C8. For every dominant set with at least two members and every score map,
`breakTieWithTraits` leaves both of its inputs unchanged: it returns
successfully, and the dominant-set list and score map it hands back are
exactly the ones it was given (the source only reads them; the fresh
`similarities` array is the only thing it sorts). -/
theorem breakTieWithTraits_frame (tiedArchetypeIds : List String)
    (allScores : List (String × ℚ)) (h2 : 2 ≤ tiedArchetypeIds.length) :
    ∃ winner, breakTieWithTraits tiedArchetypeIds allScores =
      .ok (winner, tiedArchetypeIds, allScores) := by
  rcases computeSimilarities_ok
      ((inferUserTraitVector allScores).map (fun q => (q : ℝ)))
      (by rw [List.length_map]; exact inferUserTraitVector_length allScores)
      tiedArchetypeIds with
    ⟨sims, hok, hlen⟩
  have hsortlen : (List.insertionSort simRel sims).length = sims.length :=
    (List.perm_insertionSort simRel sims).length_eq
  rcases hsort : List.insertionSort simRel sims with _ | ⟨top, others⟩
  · rw [hsort] at hsortlen
    simp only [List.length_nil] at hsortlen
    omega
  · refine ⟨top.archetypeId, ?_⟩
    unfold breakTieWithTraits
    rw [hok]
    simp only [hsort]

/-- C8 witness: the frame theorem applied to the concrete tied pair
`[ostrich, prepper]` with score map `{ostrich: 1, prepper: 1}`. -/
theorem breakTieWithTraits_frame_witness :
    ∃ winner, breakTieWithTraits ["ostrich", "prepper"]
        [("ostrich", 1), ("prepper", 1)] =
      .ok (winner, ["ostrich", "prepper"], [("ostrich", 1), ("prepper", 1)]) :=
  breakTieWithTraits_frame ["ostrich", "prepper"]
    [("ostrich", 1), ("prepper", 1)] (by decide)

/-- One radar-chart coordinate record (source lines 678-686). -/
structure RadarCoord where
  dimension : String
  angle : ℝ
  angleDegrees : ℝ
  radius : ℝ
  rawValue : ℚ
  x : ℝ
  y : ℝ
  deriving Inhabited

/-- The ordered dimension list of `calculateRadarChartCoordinates`. -/
def radarDimensions : List String :=
  ["awareness", "affect", "agency", "time", "relationality", "posture"]

/-- JS dynamic property read `traitProfile[dimension]` restricted to the six
dimension names actually iterated. -/
def traitGet (profile : TraitProfile) (dimension : String) : ℚ :=
  if dimension = "awareness" then profile.awareness
  else if dimension = "affect" then profile.affect
  else if dimension = "agency" then profile.agency
  else if dimension = "time" then profile.time
  else if dimension = "relationality" then profile.relationality
  else profile.posture

/-- The body of the `dimensions.map((dimension, index) => ...)` callback
(source lines 665-687): rescale the two [-1,1] dimensions to [0,1], take the
angle `(index/6)·2π`, and project to cartesian coordinates. -/
noncomputable def radarCoordAt (traitProfile : TraitProfile) (index : ℕ)
    (dimension : String) : RadarCoord :=
  let raw := traitGet traitProfile dimension
  let value := if dimension = "affect" ∨ dimension = "time" then (raw + 1) / 2
    else raw
  let angleRadians := ((index : ℝ) / 6) * (2 * Real.pi)
  let radius := ((value : ℚ) : ℝ)
  ⟨dimension, angleRadians, angleRadians * 180 / Real.pi, radius, raw,
    radius * Real.cos angleRadians, radius * Real.sin angleRadians⟩

/-- The indexed map of `calculateRadarChartCoordinates`. -/
noncomputable def enumMapRadar (traitProfile : TraitProfile) :
    ℕ → List String → List RadarCoord
  | _, [] => []
  | index, dimension :: rest =>
      radarCoordAt traitProfile index dimension ::
        enumMapRadar traitProfile (index + 1) rest

/-- Embedding of `calculateRadarChartCoordinates(traitProfile)` (source lines
655-690). -/
noncomputable def calculateRadarChartCoordinates (traitProfile : TraitProfile) :
    List RadarCoord :=
  enumMapRadar traitProfile 0 radarDimensions

/-- Embedding of `calculateRadarChartArea(coordinates)` (source lines
702-714): shoelace formula with wraparound `(i + 1) % n`. -/
noncomputable def calculateRadarChartArea (coordinates : List RadarCoord) : ℝ :=
  let n := coordinates.length
  |((List.range n).map (fun i =>
      let current := coordinates.getD i default
      let next := coordinates.getD ((i + 1) % n) default
      current.x * next.y - next.x * current.y)).sum| / 2

theorem area_six (c0 c1 c2 c3 c4 c5 : RadarCoord) :
    calculateRadarChartArea [c0, c1, c2, c3, c4, c5] =
      |c0.x * c1.y - c1.x * c0.y + (c1.x * c2.y - c2.x * c1.y) +
        (c2.x * c3.y - c3.x * c2.y) + (c3.x * c4.y - c4.x * c3.y) +
        (c4.x * c5.y - c5.x * c4.y) + (c5.x * c0.y - c0.x * c5.y)| / 2 := by
  have hrange : List.range 6 = [0, 1, 2, 3, 4, 5] := rfl
  simp only [calculateRadarChartArea, List.length_cons, List.length_nil,
    hrange, List.map_cons, List.map_nil, List.sum_cons, List.sum_nil]
  norm_num [List.getD]
  congr 1
  ring

theorem radarCoordAt_unit_x (i : ℕ) (d : String) :
    (radarCoordAt ⟨1, 1, 1, 1, 1, 1⟩ i d).x =
      Real.cos ((i : ℝ) / 6 * (2 * Real.pi)) := by
  simp only [radarCoordAt, traitGet]
  norm_num

theorem radarCoordAt_unit_y (i : ℕ) (d : String) :
    (radarCoordAt ⟨1, 1, 1, 1, 1, 1⟩ i d).y =
      Real.sin ((i : ℝ) / 6 * (2 * Real.pi)) := by
  simp only [radarCoordAt, traitGet]
  norm_num

theorem abs_half_of_eq (X : ℝ) (h : X = 3 * Real.sqrt 3) :
    |X| / 2 = 3 * Real.sqrt 3 / 2 := by
  subst h
  rw [abs_of_nonneg (by positivity)]

/-- C10. For the trait profile in which all six dimensions have value 1.0
(the two [-1,1]-ranged dimensions, affect and time, being rescaled to radius
(1+1)/2 = 1), `calculateRadarChartArea` applied to
`calculateRadarChartCoordinates` of that profile — six unit-radius points at
evenly spaced angles i/6 × 2π — equals 3√3/2 ≈ 2.598 under exact real
arithmetic. -/
theorem radar_unit_hexagon_area :
    calculateRadarChartArea (calculateRadarChartCoordinates ⟨1, 1, 1, 1, 1, 1⟩) =
      3 * Real.sqrt 3 / 2 := by
  have hcoords : calculateRadarChartCoordinates ⟨1, 1, 1, 1, 1, 1⟩ =
      [radarCoordAt ⟨1, 1, 1, 1, 1, 1⟩ 0 "awareness",
       radarCoordAt ⟨1, 1, 1, 1, 1, 1⟩ 1 "affect",
       radarCoordAt ⟨1, 1, 1, 1, 1, 1⟩ 2 "agency",
       radarCoordAt ⟨1, 1, 1, 1, 1, 1⟩ 3 "time",
       radarCoordAt ⟨1, 1, 1, 1, 1, 1⟩ 4 "relationality",
       radarCoordAt ⟨1, 1, 1, 1, 1, 1⟩ 5 "posture"] := rfl
  have e0 : ((0 : ℕ) : ℝ) / 6 * (2 * Real.pi) = 0 := by norm_num
  have e1 : ((1 : ℕ) : ℝ) / 6 * (2 * Real.pi) = Real.pi / 3 := by
    push_cast; ring
  have e2 : ((2 : ℕ) : ℝ) / 6 * (2 * Real.pi) = Real.pi - Real.pi / 3 := by
    push_cast; ring
  have e3 : ((3 : ℕ) : ℝ) / 6 * (2 * Real.pi) = Real.pi := by
    push_cast; ring
  have e4 : ((4 : ℕ) : ℝ) / 6 * (2 * Real.pi) =
      2 * Real.pi - (Real.pi - Real.pi / 3) := by
    push_cast; ring
  have e5 : ((5 : ℕ) : ℝ) / 6 * (2 * Real.pi) = 2 * Real.pi - Real.pi / 3 := by
    push_cast; ring
  rw [hcoords, area_six, radarCoordAt_unit_x, radarCoordAt_unit_x,
    radarCoordAt_unit_x, radarCoordAt_unit_x, radarCoordAt_unit_x,
    radarCoordAt_unit_x, radarCoordAt_unit_y, radarCoordAt_unit_y,
    radarCoordAt_unit_y, radarCoordAt_unit_y, radarCoordAt_unit_y,
    radarCoordAt_unit_y, e0, e1, e2, e3, e4, e5]
  simp only [Real.cos_two_pi_sub, Real.sin_two_pi_sub, Real.cos_pi_sub,
    Real.sin_pi_sub, Real.cos_pi_div_three, Real.sin_pi_div_three,
    Real.cos_zero, Real.sin_zero, Real.cos_pi, Real.sin_pi]
  exact abs_half_of_eq _ (by ring)

/-- Embedding of `normalizeScores(scores, questions)` (source lines 458-475). -/
def normalizeScores (scores : List (String × ℚ)) (questions : List Question) :
    Except JsError (List (String × ℚ)) :=
  let totalWeight := (questions.map (fun q => q.weight.getD 1)).sum
  if totalWeight = 0 then .error (.thrown "Total question weight is zero")
  else .ok (scores.map (fun p => (p.1, p.2 / totalWeight)))

/-- One bar of the score-distribution visualization (source lines 722-743). -/
structure DistEntry where
  archetypeId : String
  score : ℚ
  percentage : ℚ
  deriving DecidableEq, Repr

/-- JS sort order for the distribution comparator `b.score - a.score`. -/
def distRel (a b : DistEntry) : Prop := b.score ≤ a.score

instance : DecidableRel distRel :=
  fun a b => inferInstanceAs (Decidable (b.score ≤ a.score))

/-- Embedding of `calculateScoreDistribution(scores)` (source lines 722-743):
all-zero percentages (and zeroed scores) when the total is zero, otherwise
percentages relative to the total, sorted by score descending. -/
def calculateScoreDistribution (scores : List (String × ℚ)) : List DistEntry :=
  let totalScore := (scores.map Prod.snd).sum
  if totalScore = 0 then
    scores.map (fun p => ⟨p.1, 0, 0⟩)
  else
    List.insertionSort distRel
      (scores.map (fun p => ⟨p.1, p.2, p.2 / totalScore * 100⟩))

/-- The options object of `scoreQuiz` with its source defaults. -/
structure ScoreOptions where
  tieTolerance : ℚ
  breakTiesWithTraits : Bool
  includeVisualizations : Bool

/-- Source defaults: `tieTolerance = TIE_TOLERANCE`,
`breakTiesWithTraits = true`, `includeVisualizations = true`. -/
def defaultOptions : ScoreOptions := ⟨TIE_TOLERANCE, true, true⟩

/-- The `visualizations.radarChart` sub-object. -/
structure RadarChart where
  coordinates : List RadarCoord
  area : ℝ

/-- The `visualizations.primaryArchetypeRadar` sub-object. -/
structure PrimaryRadar where
  coordinates : List RadarCoord

/-- The `visualizations` sub-object of the Result (source lines 810-822). -/
structure Visualizations where
  radarChart : RadarChart
  scoreDistribution : List DistEntry
  primaryArchetypeRadar : PrimaryRadar

/-- The Result object assembled by `scoreQuiz` (source lines 825-856).
`primary`/`primaryScore` are `Option`s because `dominantResult.dominant[0]`
is `undefined` when the dominant list is empty. -/
structure ScoreResult where
  primary : Option String
  primaryScore : Option ℚ
  dominantArchetypes : List String
  dominantScores : List (String × ℚ)
  hasTie : Bool
  tieThreshold : ℚ
  allScores : List (String × ℚ)
  normalizedScores : List (String × ℚ)
  maxScore : ℚ
  variance : ℚ
  confidence : Confidence
  userTraitProfile : TraitProfile
  userTraitVector : List ℚ
  visualizations : Option Visualizations
  questionsAnswered : ℕ
  totalQuestions : ℕ
  isComplete : Bool

/-- Embedding of `scoreQuiz(questions, userResponses, options)` (source lines
770-857). Step 7 reads `ARCHETYPE_TRAIT_PROFILES[primaryArchetype]` without a
guard and hands it to `calculateRadarChartCoordinates`, which dereferences
its argument: a primary archetype without a catalogued profile therefore
raises a TypeError when visualizations are enabled. -/
noncomputable def scoreQuiz (questions : List Question)
    (userResponses : List Response) (options : ScoreOptions) :
    Except JsError ScoreResult :=
  let scores := calculateArchetypeScores questions userResponses
  match determineDominantArchetypes scores options.tieTolerance with
  | .error e => .error e
  | .ok dominantResult =>
      let confidence := calculateConfidence scores
      let primary0 : Option String := dominantResult.dominant.head?
      match (if dominantResult.hasTie && options.breakTiesWithTraits then
          (breakTieWithTraits dominantResult.dominant scores).map
            (fun t => some t.1)
        else .ok primary0 : Except JsError (Option String)) with
      | .error e => .error e
      | .ok primaryArchetype =>
          match normalizeScores scores questions with
          | .error e => .error e
          | .ok normalizedScores =>
              let userTraitVector := inferUserTraitVector scores
              let userTraitProfile : TraitProfile :=
                ⟨userTraitVector.getD 0 0, userTraitVector.getD 1 0,
                  userTraitVector.getD 2 0, userTraitVector.getD 3 0,
                  userTraitVector.getD 4 0, userTraitVector.getD 5 0⟩
              match (if options.includeVisualizations then
                  match primaryArchetype.bind profileLookup with
                  | none => .error (.typeError "Cannot read properties of undefined")
                  | some primaryProfile =>
                      let radarCoordinates :=
                        calculateRadarChartCoordinates userTraitProfile
                      .ok (some ⟨⟨radarCoordinates,
                        calculateRadarChartArea radarCoordinates⟩,
                        calculateScoreDistribution scores,
                        ⟨calculateRadarChartCoordinates primaryProfile⟩⟩)
                else .ok none : Except JsError (Option Visualizations)) with
              | .error e => .error e
              | .ok visualizations =>
                  .ok ⟨primaryArchetype,
                    primaryArchetype.bind
                      (fun a => (scores.find? (fun p => p.1 == a)).map Prod.snd),
                    dominantResult.dominant, dominantResult.scores,
                    dominantResult.hasTie, dominantResult.threshold,
                    scores, normalizedScores, dominantResult.maxScore,
                    dominantResult.variance, confidence, userTraitProfile,
                    userTraitVector, visualizations,
                    userResponses.length, questions.length,
                    decide (userResponses.length = questions.length)⟩

/-- C7 failing input, quiz side: one question whose only answer awards points
exclusively to an archetype id that is absent from the trait catalogue. -/
def c7Questions : List Question :=
  [⟨"q1", "How do you relate to collapse?", none,
    [⟨"a", [("new-archetype", 5)]⟩]⟩]

/-- C7 failing input, response side: the single response selects that answer,
so the resolved primary archetype is the uncatalogued `new-archetype`. -/
def c7Responses : List Response := [⟨"q1", "a"⟩]

set_option maxRecDepth 8000 in
/-- C7. Evaluating `scoreQuiz` with default options (visualizations enabled)
on a quiz whose resolved primary archetype has no catalogued trait profile:
the Dominance Resolver succeeds (dominant set `[new-archetype]`), but step 7
reads `ARCHETYPE_TRAIT_PROFILES[primaryArchetype]` — `undefined` — and passes
it to `calculateRadarChartCoordinates`, raising a TypeError instead of
returning a Result, contrary to the claim. -/
theorem scoreQuiz_missing_profile_throws :
    scoreQuiz c7Questions c7Responses defaultOptions =
      .error (.typeError "Cannot read properties of undefined") := by
  have hscores : calculateArchetypeScores c7Questions c7Responses =
      initialScores ++ [("new-archetype", 5)] := by
    norm_num +decide [calculateArchetypeScores, c7Questions, c7Responses,
      processResponse, questionLookup, applyAnswerPoints, addScore,
      initialScores, ARCHETYPE_TRAIT_PROFILES]
  have hdom : determineDominantArchetypes
      (initialScores ++ [("new-archetype", 5)]) TIE_TOLERANCE =
      .ok ⟨["new-archetype"], [("new-archetype", 5)], 5, 19/4, false, 5⟩ := by
    norm_num +decide [determineDominantArchetypes, scoresMax, scoresMin,
      initialScores, ARCHETYPE_TRAIT_PROFILES, MINIMUM_VARIANCE,
      TIE_TOLERANCE, max_def, min_def]
  have hnorm : normalizeScores (initialScores ++ [("new-archetype", 5)])
      c7Questions =
      .ok ((initialScores ++ [("new-archetype", 5)]).map
        (fun p : String × ℚ => (p.1, p.2 / 1))) := by
    norm_num [normalizeScores, c7Questions]
  have hlookup : profileLookup "new-archetype" = none := by
    norm_num +decide [profileLookup, ARCHETYPE_TRAIT_PROFILES]
  simp only [scoreQuiz, hscores, defaultOptions, hdom, hnorm, hlookup,
    Bool.false_and, Bool.and_self, Bool.false_eq_true, if_false, List.head?,
    Option.some_bind, Option.none_bind, ite_true, ite_false]

/-- Dynamic JavaScript values, as far as the two structural validators can
observe them: the validators receive arbitrary caller data, so their claims
are settled over this value model rather than over the typed records used by
the scoring pipeline. -/
inductive JsVal where
  | null
  | undefinedVal
  | bool (b : Bool)
  | num (q : ℚ)
  | str (s : String)
  | arr (elems : List JsVal)
  | obj (fields : List (String × JsVal))

/-- JS truthiness. (`NaN` does not arise in the exact-rational model.) -/
def truthy : JsVal → Prop
  | .null => False
  | .undefinedVal => False
  | .bool b => b = true
  | .num q => q ≠ 0
  | .str s => s ≠ ""
  | .arr _ => True
  | .obj _ => True

instance : DecidablePred truthy := fun v =>
  match v with
  | .null => inferInstanceAs (Decidable False)
  | .undefinedVal => inferInstanceAs (Decidable False)
  | .bool b => inferInstanceAs (Decidable (b = true))
  | .num q => inferInstanceAs (Decidable (q ≠ 0))
  | .str s => inferInstanceAs (Decidable (s ≠ ""))
  | .arr _ => inferInstanceAs (Decidable True)
  | .obj _ => inferInstanceAs (Decidable True)

/-- `Array.isArray`. -/
def isArray : JsVal → Bool
  | .arr _ => true
  | _ => false

/-- An array value with zero elements (`x.length === 0` under `isArray x`). -/
def isEmptyArray : JsVal → Bool
  | .arr [] => true
  | _ => false

/-- `typeof x === 'object'` (true for objects, arrays and `null`). -/
def isObjectType : JsVal → Bool
  | .obj _ => true
  | .arr _ => true
  | .null => true
  | _ => false

/-- Values on which property access throws a TypeError. -/
def isNullish : JsVal → Bool
  | .null => true
  | .undefinedVal => true
  | _ => false

/-- JS `ToString`, used for template-literal messages and property keys.
Rationals are rendered through Lean's `ℚ` printer; only the integral values
appearing in ids are message-relevant, and no proved property depends on
message text. Arrays and objects use their standard degenerate renderings. -/
def jsDisplay : JsVal → String
  | .null => "null"
  | .undefinedVal => "undefined"
  | .bool b => if b then "true" else "false"
  | .num q => toString q
  | .str s => s
  | .arr _ => ""
  | .obj _ => "[object Object]"

/-- Strict equality `===`. Primitives compare by value; two distinct array or
object literals are never `===` (reference equality, and this value model has
no aliasing), so composite comparisons are `False`. -/
def strictEq : JsVal → JsVal → Prop
  | .null, .null => True
  | .undefinedVal, .undefinedVal => True
  | .bool a, .bool b => a = b
  | .num a, .num b => a = b
  | .str a, .str b => a = b
  | _, _ => False

instance : ∀ a b : JsVal, Decidable (strictEq a b) := fun a b => by
  cases a <;> cases b <;> simp only [strictEq] <;> infer_instance

/-- Property read on a value already known not to throw: object fields by
key (first match; JS object keys are unique), `undefined` for a missing field
or a primitive/array receiver. -/
def pureProp (v : JsVal) (name : String) : JsVal :=
  match v with
  | .obj fields => ((fields.find? (fun f => f.1 == name)).map (·.2)).getD .undefinedVal
  | _ => .undefinedVal

/-- JS property access `v[name]`: throws a TypeError on `null`/`undefined`,
otherwise reads the property. -/
def getProp (v : JsVal) (name : String) : Except JsError JsVal :=
  if isNullish v then
    .error (.typeError ("Cannot read properties of " ++ jsDisplay v))
  else .ok (pureProp v name)

/-- JS logical or `a || b`. -/
def jsOr (a b : JsVal) : JsVal := if truthy a then a else b

/-- The validators' result object `{valid, errors}`. -/
structure Validation where
  valid : Bool
  errors : List String
  deriving DecidableEq, Repr

/-- The per-answer checks of `validateQuizData` (source lines 893-900): a
falsy `id` and a falsy or non-object `archetypeScores` each push one message.
Property reads are front-loaded; this is observationally equivalent since the
whole call throws as soon as any read throws. -/
def validateAnswer (qlabel : String) (aIndex : ℕ) (a : JsVal) :
    Except JsError (List String) :=
  match getProp a "id" with
  | .error e => .error e
  | .ok aid =>
      match getProp a "archetypeScores" with
      | .error e => .error e
      | .ok ascores =>
          let errs1 := if truthy aid then [] else
            ["Answer at index " ++ toString aIndex ++ " for question " ++
              qlabel ++ " missing id"]
          let errs2 := if ¬ truthy ascores ∨ isObjectType ascores = false then
            ["Answer " ++ jsDisplay (jsOr aid (.num (aIndex : ℚ))) ++
              " for question " ++ qlabel ++ " missing archetypeScores"]
            else []
          .ok (errs1 ++ errs2)

/-- The `q.answers.forEach` loop over answers with its running index. -/
def validateAnswersList (qlabel : String) :
    ℕ → List JsVal → Except JsError (List String)
  | _, [] => .ok []
  | aIndex, a :: rest =>
      match validateAnswer qlabel aIndex a with
      | .error e => .error e
      | .ok errs =>
          match validateAnswersList qlabel (aIndex + 1) rest with
          | .error e => .error e
          | .ok more => .ok (errs ++ more)

/-- The per-question checks of `validateQuizData` (source lines 881-902):
missing id, missing text, missing/empty answer array; then, whenever
`q.answers` is truthy, `q.answers.forEach` runs — a TypeError when it is a
truthy non-array. -/
def validateQuestion (index : ℕ) (q : JsVal) : Except JsError (List String) :=
  match getProp q "id" with
  | .error e => .error e
  | .ok qid =>
  match getProp q "text" with
  | .error e => .error e
  | .ok qtext =>
  match getProp q "answers" with
  | .error e => .error e
  | .ok qanswers =>
      let qlabel := jsDisplay (jsOr qid (.num (index : ℚ)))
      let errs1 := if truthy qid then [] else
        ["Question at index " ++ toString index ++ " missing id"]
      let errs2 := if truthy qtext then [] else
        ["Question " ++ qlabel ++ " missing text"]
      let errs3 := if isArray qanswers = false ∨ isEmptyArray qanswers = true then
        ["Question " ++ qlabel ++ " must have at least one answer"] else []
      match (if truthy qanswers then
          match qanswers with
          | .arr elems => validateAnswersList qlabel 0 elems
          | _ => .error (.typeError "q.answers.forEach is not a function")
        else .ok [] : Except JsError (List String)) with
      | .error e => .error e
      | .ok errs4 => .ok (errs1 ++ errs2 ++ errs3 ++ errs4)

/-- The `questions.forEach` loop of `validateQuizData`. -/
def validateQuestionsList : ℕ → List JsVal → Except JsError (List String)
  | _, [] => .ok []
  | index, q :: rest =>
      match validateQuestion index q with
      | .error e => .error e
      | .ok errs =>
          match validateQuestionsList (index + 1) rest with
          | .error e => .error e
          | .ok more => .ok (errs ++ more)

/-- Embedding of `validateQuizData(questions)` (source lines 869-908) over
dynamic values. -/
def validateQuizData (questions : JsVal) : Except JsError Validation :=
  match questions with
  | .arr qs =>
      (match validateQuestionsList 0 qs with
       | .error e => .error e
       | .ok qerrs =>
           let errors :=
             (if qs.isEmpty then ["Quiz must have at least one question"]
              else []) ++ qerrs
           .ok ⟨errors.isEmpty, errors⟩)
  | _ => .ok ⟨false, ["Questions must be an array"]⟩

/-- JS object assignment `map[k] = v`: replace in place or append. -/
def insertReplace : List (String × JsVal) → String → JsVal →
    List (String × JsVal)
  | [], k, v => [(k, v)]
  | p :: rest, k, v =>
      if p.1 = k then (k, v) :: rest else p :: insertReplace rest k v

/-- `questions.forEach(q => questionMap[q.id] = q)` of
`validateUserResponses`: reads `q.id` (which may throw) and keys the map by
its `ToString`. -/
def buildQuestionMap : List JsVal → List (String × JsVal) →
    Except JsError (List (String × JsVal))
  | [], acc => .ok acc
  | q :: rest, acc =>
      match getProp q "id" with
      | .error e => .error e
      | .ok qid => buildQuestionMap rest (insertReplace acc (jsDisplay qid) q)

/-- `question.answers.find(a => a.id === response.answerId)`, reduced to the
found/not-found flag the validator consumes; reads each element's `id`. -/
def findAnswerById (target : JsVal) : List JsVal → Except JsError Bool
  | [] => .ok false
  | a :: rest =>
      match getProp a "id" with
      | .error e => .error e
      | .ok aid =>
          if strictEq aid target then .ok true else findAnswerById target rest

/-- The per-response checks of `validateUserResponses` (source lines
930-950): falsy questionId or answerId push a message and stop; an
unresolved question id pushes a message; otherwise the answer id must resolve
within the question's answers (`.find` throws on a non-array `answers`). -/
def validateResponseItem (questionMap : List (String × JsVal)) (index : ℕ)
    (r : JsVal) : Except JsError (List String) :=
  match getProp r "questionId" with
  | .error e => .error e
  | .ok qid =>
      if truthy qid then
        match getProp r "answerId" with
        | .error e => .error e
        | .ok aid =>
            if truthy aid then
              match (questionMap.find?
                  (fun p => p.1 == jsDisplay qid)).map (·.2) with
              | none =>
                  .ok ["Response references unknown question: " ++
                    jsDisplay qid]
              | some question =>
                  match getProp question "answers" with
                  | .error e => .error e
                  | .ok answers =>
                      match answers with
                      | .arr elems =>
                          match findAnswerById aid elems with
                          | .error e => .error e
                          | .ok found =>
                              if found then .ok []
                              else .ok ["Response references unknown answer: " ++
                                jsDisplay aid ++ " for question " ++
                                jsDisplay qid]
                      | _ => .error
                          (.typeError "question.answers.find is not a function")
            else .ok ["Response at index " ++ toString index ++
              " missing answerId"]
      else .ok ["Response at index " ++ toString index ++ " missing questionId"]

/-- The `userResponses.forEach` loop of `validateUserResponses`. -/
def validateResponsesList (questionMap : List (String × JsVal)) :
    ℕ → List JsVal → Except JsError (List String)
  | _, [] => .ok []
  | index, r :: rest =>
      match validateResponseItem questionMap index r with
      | .error e => .error e
      | .ok errs =>
          match validateResponsesList questionMap (index + 1) rest with
          | .error e => .error e
          | .ok more => .ok (errs ++ more)

/-- Embedding of `validateUserResponses(questions, userResponses)` (source
lines 917-956): only `userResponses` is guarded by an `Array.isArray` check;
`questions.forEach` runs unguarded. -/
def validateUserResponses (questions userResponses : JsVal) :
    Except JsError Validation :=
  match userResponses with
  | .arr rs =>
      (match (match questions with
          | .arr qs => buildQuestionMap qs []
          | _ => .error (.typeError "questions.forEach is not a function")
        : Except JsError (List (String × JsVal))) with
       | .error e => .error e
       | .ok questionMap =>
           match validateResponsesList questionMap 0 rs with
           | .error e => .error e
           | .ok errors => .ok ⟨errors.isEmpty, errors⟩)
  | _ => .ok ⟨false, ["User responses must be an array"]⟩

/-- A well-formed `answers` field for the quiz validator: either falsy (the
`forEach` is skipped) or an array whose elements can have properties read. -/
def wfAnswersField (v : JsVal) : Prop :=
  match v with
  | .arr elems => ∀ a ∈ elems, isNullish a = false
  | v => ¬ truthy v

/-- A question value the quiz validator can process without throwing. -/
def wfQuestionVal (q : JsVal) : Prop :=
  isNullish q = false ∧ wfAnswersField (pureProp q "answers")

/-- A quiz-definition value the quiz validator can process without throwing
(a non-array input is rejected before any property access). -/
def wfQuizVal (questions : JsVal) : Prop :=
  match questions with
  | .arr qs => ∀ q ∈ qs, wfQuestionVal q
  | _ => True

/-- A question value the response validator can dereference: its `answers`
field is an array of non-nullish elements (`.find` reads each `id`). -/
def wfQuestionAnswers (q : JsVal) : Prop :=
  match pureProp q "answers" with
  | .arr elems => ∀ a ∈ elems, isNullish a = false
  | _ => False

/-- Inputs the response validator can process without throwing: when
`userResponses` is an array, `questions` must be an array of non-nullish
questions with well-formed answer arrays and every response must be
non-nullish; a non-array `userResponses` is rejected up front. -/
def wfResponsesInputs (questions userResponses : JsVal) : Prop :=
  match userResponses with
  | .arr rs =>
      (match questions with
       | .arr qs => ∀ q ∈ qs, isNullish q = false ∧ wfQuestionAnswers q
       | _ => False) ∧
      (∀ r ∈ rs, isNullish r = false)
  | _ => True

theorem getProp_ok (v : JsVal) (name : String) (h : isNullish v = false) :
    getProp v name = .ok (pureProp v name) := by
  simp [getProp, h]

theorem validateAnswer_ok (qlabel : String) (aIndex : ℕ) (a : JsVal)
    (h : isNullish a = false) :
    ∃ errs, validateAnswer qlabel aIndex a = .ok errs := by
  unfold validateAnswer
  rw [getProp_ok a "id" h, getProp_ok a "archetypeScores" h]
  exact ⟨_, rfl⟩

theorem validateAnswersList_ok (qlabel : String) (elems : List JsVal)
    (h : ∀ a ∈ elems, isNullish a = false) :
    ∀ aIndex : ℕ, ∃ errs, validateAnswersList qlabel aIndex elems = .ok errs := by
  induction elems with
  | nil => exact fun _ => ⟨[], rfl⟩
  | cons a rest ih =>
      intro aIndex
      obtain ⟨e1, h1⟩ := validateAnswer_ok qlabel aIndex a
        (h a (List.mem_cons_self a rest))
      obtain ⟨e2, h2⟩ := ih (fun x hx => h x (List.mem_cons_of_mem a hx))
        (aIndex + 1)
      exact ⟨e1 ++ e2, by simp only [validateAnswersList, h1, h2]⟩

theorem validateQuestion_ok (index : ℕ) (q : JsVal) (h : wfQuestionVal q) :
    ∃ errs, validateQuestion index q = .ok errs := by
  obtain ⟨hq, hans⟩ := h
  have hunfold : validateQuestion index q =
      (match (if truthy (pureProp q "answers") then
          match pureProp q "answers" with
          | .arr elems =>
              validateAnswersList
                (jsDisplay (jsOr (pureProp q "id") (.num (index : ℚ)))) 0 elems
          | _ => .error (.typeError "q.answers.forEach is not a function")
        else .ok [] : Except JsError (List String)) with
      | .error e => .error e
      | .ok errs4 =>
          .ok ((if truthy (pureProp q "id") then [] else
              ["Question at index " ++ toString index ++ " missing id"]) ++
            (if truthy (pureProp q "text") then [] else
              ["Question " ++
                jsDisplay (jsOr (pureProp q "id") (.num (index : ℚ))) ++
                " missing text"]) ++
            (if isArray (pureProp q "answers") = false ∨
                isEmptyArray (pureProp q "answers") = true then
              ["Question " ++
                jsDisplay (jsOr (pureProp q "id") (.num (index : ℚ))) ++
                " must have at least one answer"] else []) ++ errs4)) := by
    unfold validateQuestion
    rw [getProp_ok q "id" hq, getProp_ok q "text" hq, getProp_ok q "answers" hq]
  by_cases ht : truthy (pureProp q "answers")
  · rcases hpa : pureProp q "answers" with _ | _ | b | n | s | elems | fields
    all_goals rw [hpa] at hunfold ht hans
    all_goals simp only [wfAnswersField] at hans
    all_goals first
      | exact absurd ht hans
      | (obtain ⟨e4, h4⟩ := validateAnswersList_ok
            (jsDisplay (jsOr (pureProp q "id") (.num (index : ℚ)))) _ hans 0
         rw [hunfold, if_pos ht]
         simp only [h4]
         exact ⟨_, rfl⟩)
  · rw [hunfold, if_neg ht]
    exact ⟨_, rfl⟩

theorem validateQuestionsList_ok (qs : List JsVal)
    (h : ∀ q ∈ qs, wfQuestionVal q) :
    ∀ index : ℕ, ∃ errs, validateQuestionsList index qs = .ok errs := by
  induction qs with
  | nil => exact fun _ => ⟨[], rfl⟩
  | cons q rest ih =>
      intro index
      obtain ⟨e1, h1⟩ := validateQuestion_ok index q
        (h q (List.mem_cons_self q rest))
      obtain ⟨e2, h2⟩ := ih (fun x hx => h x (List.mem_cons_of_mem q hx))
        (index + 1)
      exact ⟨e1 ++ e2, by simp only [validateQuestionsList, h1, h2]⟩

theorem insertReplace_snd_mem (acc : List (String × JsVal)) (k : String)
    (v : JsVal) (p : String × JsVal) (hp : p ∈ insertReplace acc k v) :
    p.2 = v ∨ p.2 ∈ acc.map Prod.snd := by
  induction acc with
  | nil =>
      simp only [insertReplace, List.mem_singleton] at hp
      exact Or.inl (by rw [hp])
  | cons q rest ih =>
      by_cases hk : q.1 = k
      · simp only [insertReplace, if_pos hk, List.mem_cons] at hp
        rcases hp with rfl | hp
        · exact Or.inl rfl
        · exact Or.inr (List.mem_map.2 ⟨p, List.mem_cons_of_mem q hp, rfl⟩)
      · simp only [insertReplace, if_neg hk, List.mem_cons] at hp
        rcases hp with rfl | hp
        · exact Or.inr (List.mem_map.2 ⟨p, List.mem_cons_self p rest, rfl⟩)
        · rcases ih hp with h | h
          · exact Or.inl h
          · refine Or.inr ?_
            simp only [List.map_cons, List.mem_cons]
            exact Or.inr h

theorem buildQuestionMap_ok (qs : List JsVal)
    (h : ∀ q ∈ qs, isNullish q = false) :
    ∀ acc : List (String × JsVal),
      ∃ m, buildQuestionMap qs acc = .ok m ∧
        ∀ p ∈ m, p.2 ∈ qs ∨ p.2 ∈ acc.map Prod.snd := by
  induction qs with
  | nil => exact fun acc => ⟨acc, rfl, fun p hp => Or.inr (List.mem_map.2 ⟨p, hp, rfl⟩)⟩
  | cons q rest ih =>
      intro acc
      have hq := h q (List.mem_cons_self q rest)
      obtain ⟨m, hm, hmem⟩ := ih (fun x hx => h x (List.mem_cons_of_mem q hx))
        (insertReplace acc (jsDisplay (pureProp q "id")) q)
      refine ⟨m, ?_, ?_⟩
      · simp only [buildQuestionMap, getProp_ok q "id" hq]
        exact hm
      · intro p hp
        rcases hmem p hp with hin | hin
        · exact Or.inl (List.mem_cons_of_mem q hin)
        · rcases List.mem_map.1 hin with ⟨entry, hentry, hval⟩
          rcases insertReplace_snd_mem acc (jsDisplay (pureProp q "id")) q
              entry hentry with he | he
          · exact Or.inl (by rw [← hval, he]; exact List.mem_cons_self q rest)
          · exact Or.inr (by rw [← hval]; exact he)

theorem findAnswerById_ok (target : JsVal) (elems : List JsVal)
    (h : ∀ a ∈ elems, isNullish a = false) :
    ∃ b, findAnswerById target elems = .ok b := by
  induction elems with
  | nil => exact ⟨false, rfl⟩
  | cons a rest ih =>
      obtain ⟨b, hb⟩ := ih (fun x hx => h x (List.mem_cons_of_mem a hx))
      have ha := h a (List.mem_cons_self a rest)
      by_cases hs : strictEq (pureProp a "id") target
      · refine ⟨true, ?_⟩
        simp only [findAnswerById, getProp_ok a "id" ha, if_pos hs]
      · refine ⟨b, ?_⟩
        simp only [findAnswerById, getProp_ok a "id" ha, if_neg hs]
        exact hb

theorem validateResponseItem_ok (questionMap : List (String × JsVal))
    (index : ℕ) (r : JsVal) (hr : isNullish r = false)
    (hm : ∀ p ∈ questionMap, isNullish p.2 = false ∧ wfQuestionAnswers p.2) :
    ∃ errs, validateResponseItem questionMap index r = .ok errs := by
  unfold validateResponseItem
  rw [getProp_ok r "questionId" hr]
  by_cases hq : truthy (pureProp r "questionId")
  · rw [getProp_ok r "answerId" hr]
    by_cases ha : truthy (pureProp r "answerId")
    · rcases hfind : (questionMap.find?
          (fun p => p.1 == jsDisplay (pureProp r "questionId"))).map (·.2) with
        _ | question
      · simp only [if_pos hq, if_pos ha, hfind]
        exact ⟨_, rfl⟩
      · have hqmem : question ∈ questionMap.map Prod.snd := by
          rcases Option.map_eq_some'.1 hfind with ⟨entry, hentry, hval⟩
          exact List.mem_map.2 ⟨entry, List.mem_of_find?_eq_some hentry, hval⟩
        rcases List.mem_map.1 hqmem with ⟨entry, hentry, hval⟩
        obtain ⟨hqnn, hqans⟩ := hm entry hentry
        rw [hval] at hqnn hqans
        rcases hpa : pureProp question "answers" with _ | _ | b | n | s | elems | fields
        all_goals simp only [wfQuestionAnswers, hpa] at hqans
        obtain ⟨found, hfound⟩ := findAnswerById_ok
          (pureProp r "answerId") elems hqans
        simp only [if_pos hq, if_pos ha, hfind, getProp_ok question "answers" hqnn,
          hpa, hfound]
        by_cases hf : found = true
        · subst hf
          simp only [if_pos rfl]
          exact ⟨_, rfl⟩
        · have : found = false := by
            cases found
            · rfl
            · exact absurd rfl hf
          subst this
          simp only [Bool.false_eq_true, if_false]
          exact ⟨_, rfl⟩
    · simp only [if_pos hq, if_neg ha]
      exact ⟨_, rfl⟩
  · simp only [if_neg hq]
    exact ⟨_, rfl⟩

theorem validateResponsesList_ok (questionMap : List (String × JsVal))
    (hm : ∀ p ∈ questionMap, isNullish p.2 = false ∧ wfQuestionAnswers p.2)
    (rs : List JsVal) (h : ∀ r ∈ rs, isNullish r = false) :
    ∀ index : ℕ, ∃ errs, validateResponsesList questionMap index rs = .ok errs := by
  induction rs with
  | nil => exact fun _ => ⟨[], rfl⟩
  | cons r rest ih =>
      intro index
      obtain ⟨e1, h1⟩ := validateResponseItem_ok questionMap index r
        (h r (List.mem_cons_self r rest)) hm
      obtain ⟨e2, h2⟩ := ih (fun x hx => h x (List.mem_cons_of_mem r hx))
        (index + 1)
      exact ⟨e1 ++ e2, by simp only [validateResponsesList, h1, h2]⟩

/-- C9 counterexample: a quiz value whose question carries the truthy
non-array `answers: 5` makes `validateQuizData` raise a TypeError
(`5.forEach` is not a function) instead of returning a `{valid, errors}`
result, refuting "never raise an error" over arbitrary malformed input. -/
theorem validators_total_cex :
    validateQuizData (.arr [.obj [("id", .num 1), ("text", .str "t"),
        ("answers", .num 5)]]) =
      .error (.typeError "q.answers.forEach is not a function") := by
  have hq : validateQuestion 0 (JsVal.obj [("id", .num 1), ("text", .str "t"),
      ("answers", .num 5)]) =
      .error (.typeError "q.answers.forEach is not a function") := rfl
  simp only [validateQuizData, validateQuestionsList, hq]

/-- C9 amended: the validators return a `{valid, errors}` result with
`valid` true exactly when `errors` is empty — and never raise — for every
input that is JS-well-formed for the traversal each validator performs:
for `validateQuizData`, any non-array, or an array of non-nullish questions
whose truthy `answers` fields are arrays of non-nullish elements; for
`validateUserResponses`, any non-array response list, or an array of
non-nullish responses together with an array of non-nullish questions whose
`answers` fields are arrays of non-nullish elements. On other inputs the
validators can throw a TypeError (e.g. a truthy non-array `answers`). -/
theorem validators_wf_spec (questions userResponses : JsVal) :
    (wfQuizVal questions →
      ∃ v, validateQuizData questions = .ok v ∧
        (v.valid = true ↔ v.errors = [])) ∧
    (wfResponsesInputs questions userResponses →
      ∃ v, validateUserResponses questions userResponses = .ok v ∧
        (v.valid = true ↔ v.errors = [])) := by
  constructor
  · intro hwf
    rcases questions with _ | _ | b | n | s | qs | fields
    case arr =>
        simp only [wfQuizVal] at hwf
        obtain ⟨qerrs, hq⟩ := validateQuestionsList_ok qs hwf 0
        refine ⟨⟨((if qs.isEmpty then ["Quiz must have at least one question"]
            else []) ++ qerrs).isEmpty,
          (if qs.isEmpty then ["Quiz must have at least one question"]
            else []) ++ qerrs⟩, ?_, ?_⟩
        · simp only [validateQuizData, hq]
        · simp [List.isEmpty_iff]
    all_goals exact ⟨⟨false, ["Questions must be an array"]⟩, rfl, by simp⟩
  · intro hwf
    rcases userResponses with _ | _ | b | n | s | rs | fields
    case arr =>
        simp only [wfResponsesInputs] at hwf
        obtain ⟨hqs, hrs⟩ := hwf
        rcases questions with _ | _ | b | n | s | qs | qfields
        all_goals first
          | exact hqs.elim
          | (obtain ⟨m, hm, hmem⟩ := buildQuestionMap_ok qs
              (fun q hq => (hqs q hq).1) []
             have hmwf : ∀ p ∈ m,
                 isNullish p.2 = false ∧ wfQuestionAnswers p.2 := by
               intro p hp
               rcases hmem p hp with hin | hin
               · exact hqs p.2 hin
               · simp at hin
             obtain ⟨errors, herr⟩ := validateResponsesList_ok m hmwf rs hrs 0
             refine ⟨⟨errors.isEmpty, errors⟩, ?_, ?_⟩
             · simp only [validateUserResponses, hm, herr]
             · simp [List.isEmpty_iff])
    all_goals exact ⟨⟨false, ["User responses must be an array"]⟩, rfl, by simp⟩

/-- C9 witness: the spec applied to a concrete well-formed quiz (one
question, one answer, empty score map) and the empty response list; both
validators succeed and both components\' valid flags agree with emptiness of
their error lists. -/
theorem validators_wf_spec_witness :
    (∃ v, validateQuizData (.arr [.obj [("id", .num 1), ("text", .str "t"),
        ("answers", .arr [.obj [("id", .str "a"),
          ("archetypeScores", .obj [])]])]]) = .ok v ∧
      (v.valid = true ↔ v.errors = [])) ∧
    (∃ v, validateUserResponses (.arr [.obj [("id", .num 1),
        ("text", .str "t"), ("answers", .arr [.obj [("id", .str "a"),
          ("archetypeScores", .obj [])]])]]) (.arr []) = .ok v ∧
      (v.valid = true ↔ v.errors = [])) := by
  constructor
  · refine (validators_wf_spec _ (.arr [])).1 ?_
    intro q hq
    simp only [List.mem_singleton] at hq
    subst hq
    refine ⟨rfl, ?_⟩
    show ∀ a ∈ [JsVal.obj [("id", JsVal.str "a"),
      ("archetypeScores", JsVal.obj [])]], isNullish a = false
    decide
  · refine (validators_wf_spec _ _).2 ?_
    refine ⟨?_, by simp⟩
    intro q hq
    simp only [List.mem_singleton] at hq
    subst hq
    refine ⟨rfl, ?_⟩
    show ∀ a ∈ [JsVal.obj [("id", JsVal.str "a"),
      ("archetypeScores", JsVal.obj [])]], isNullish a = false
    decide
